import Mathlib

set_option maxRecDepth 10000

attribute [local semireducible] Rat.mul Rat.add Rat.sub Rat.inv

/-!
Shallow embedding of `src/agenda_builder/agenda_builder.py` (the Agenda
Compiler & Grid Renderer).  Calendar dates are modelled as integer day
ordinals (`ℤ`), clock times as minutes after midnight (`ℕ`), and the
`granularity` as an integer number of minutes, since date/time string parsing
is explicitly out of scope for the core.  Python floats are modelled as `ℚ`
(all quantizer arithmetic here is exact on the representable inputs).
Python dicts are modelled as insertion-ordered association lists, Python
exceptions as `Except` / explicitly returned error values.
-/

deriving instance DecidableEq for Except

namespace AgendaBuilderPy

/-- A cell of the logical grid: `grid[slot][day]` is either `None` or the
dict `{'id': internal_id, 'frac_start': t_idx_float}` (agenda_builder.py
lines 224-227). -/
structure GridCell where
  id : ℕ
  fracStart : ℚ
deriving DecidableEq

/-- Metadata for a specific event definition (`AgendaEventData`). -/
structure AgendaEventData where
  internalId : ℕ
  color : String
  title : String
  subtext : String
  subtextSize : String
  openEnded : Bool
deriving DecidableEq

/-- One entry of `self.special_events` (`add_special_event`).  The time
range tuple is modelled as a list of strings. -/
structure SpecialEvent where
  date : String
  timeRange : List String
  title : String
  subtext : String
  color : String
deriving DecidableEq

/-- One pending time range `(date_str, start_str, end_str|None)`, already
parsed: an integer day ordinal, a start time in minutes after midnight, and
an optional end time in minutes after midnight. -/
structure TimeRange where
  date : ℤ
  startT : ℕ
  endT : Option ℕ
deriving DecidableEq

/-- One entry of `self.pending_events`: `{'internal_id': ..., 'ranges': ...}`. -/
structure PendingItem where
  internalId : ℕ
  ranges : List TimeRange
deriving DecidableEq

/-- The rgb triple stored by `define_color` (the literal LaTeX format string
`\x7b\x7brgb\x7d\x7d\x7b\x7br,g,b\x7d\x7d` is out-of-scope serialization;
only the information content is kept). -/
structure ColorSpec where
  r : ℚ
  g : ℚ
  b : ℚ
deriving DecidableEq

/-- The frozen `CompiledAgenda` dataclass. -/
structure CompiledAgenda where
  title : String
  startDate : ℤ
  endDate : ℤ
  startTime : ℕ
  endTime : ℕ
  granularity : ℕ
  numDays : ℤ
  numSlots : ℕ
  grid : List (List (Option GridCell))
  events : List (ℕ × AgendaEventData)
  colors : List (String × ColorSpec)
  specialEvents : List SpecialEvent
deriving DecidableEq

/-- The mutable state of an `AgendaBuilder` instance. -/
structure BuilderState where
  prefStartDate : Option ℤ
  prefEndDate : Option ℤ
  prefStartTime : Option ℕ
  prefEndTime : Option ℕ
  pendingEvents : List PendingItem
  events : List (ℕ × AgendaEventData)
  externalEventIds : List (String × ℕ)
  eventCounter : ℕ
  colors : List (String × ColorSpec)
  specialEvents : List SpecialEvent
  title : String
  cachedCompilation : Option CompiledAgenda
deriving DecidableEq

/-- Python dict assignment `d[k] = v`: replace in place if the key exists,
otherwise append (insertion order preserved). -/
def dictInsert {α β : Type} [DecidableEq α] (l : List (α × β)) (k : α) (v : β) :
    List (α × β) :=
  if l.any (fun p => p.1 = k) then l.map (fun p => if p.1 = k then (k, v) else p)
  else l ++ [(k, v)]

/-- Python `d.get(k)`. -/
def dictGet {α β : Type} [DecidableEq α] (l : List (α × β)) (k : α) : Option β :=
  (l.find? (fun p => p.1 = k)).map (fun p => p.2)

/-- `AgendaBuilder.__init__` (date/time strings already parsed). -/
def initialState (startDate endDate : Option ℤ) (startTime endTime : Option ℕ) :
    BuilderState :=
  { prefStartDate := startDate
    prefEndDate := endDate
    prefStartTime := startTime
    prefEndTime := endTime
    pendingEvents := []
    events := []
    externalEventIds := []
    eventCounter := 0
    colors := []
    specialEvents := []
    title := "Weekly Agenda"
    cachedCompilation := none }

/-- `set_title`: sets the title and clears `_cached_compilation`. -/
def setTitle (s : BuilderState) (title : String) : BuilderState :=
  { s with title := title, cachedCompilation := none }

/-- `define_color`: records the color; note that it does NOT clear
`_cached_compilation` in the source. -/
def defineColor (s : BuilderState) (name : String) (r g b : ℚ) : BuilderState :=
  { s with colors := dictInsert s.colors name ⟨r, g, b⟩ }

/-- `add_special_event`: appends the annotation; note that it does NOT clear
`_cached_compilation` in the source. -/
def addSpecialEvent (s : BuilderState) (dateStr : String) (timeRange : List String)
    (title subtext colorName : String) : BuilderState :=
  { s with specialEvents :=
      s.specialEvents ++ [⟨dateStr, timeRange, title, subtext, colorName⟩] }

/-- Python `str.isspace()` (nonempty and all characters whitespace). -/
def strIsSpace (s : String) : Bool :=
  decide (s ≠ "") && s.toList.all Char.isWhitespace

/-- `add_event`.  `event_subtext`/`subtext_size` arrive as `Option String`
(`None` or a string); `time_ranges` arrives already normalized to a list.
Returns the internal event id and the new state. -/
def addEvent (s : BuilderState) (eventColor eventTitle : String)
    (eventSubtext : Option String) (timeRanges : List TimeRange)
    (subtextSize : Option String) (openEnded : Bool)
    (eventId : Option String) : ℕ × BuilderState :=
  let subtext := match eventSubtext with
    | none => ""
    | some t => if t = "" then "" else t
  let size := match subtextSize with
    | none => "normalsize"
    | some z => if z = "" then "normalsize" else z
  let idTriple : ℕ × ℕ × List (String × ℕ) :=
    match eventId with
    | none => (s.eventCounter + 1, s.eventCounter + 1, s.externalEventIds)
    | some k =>
      if k = "" || strIsSpace k then
        (s.eventCounter + 1, s.eventCounter + 1, s.externalEventIds)
      else
        match dictGet s.externalEventIds k with
        | some iid => (s.eventCounter, iid, s.externalEventIds)
        | none =>
          (s.eventCounter + 1, s.eventCounter + 1,
            dictInsert s.externalEventIds k (s.eventCounter + 1))
  let counter := idTriple.1
  let internalId := idTriple.2.1
  let eventData : AgendaEventData :=
    ⟨internalId, eventColor, eventTitle, subtext, size, openEnded⟩
  (internalId,
    { s with
      eventCounter := counter
      externalEventIds := idTriple.2.2
      events := dictInsert s.events internalId eventData
      pendingEvents := s.pendingEvents ++ [⟨internalId, timeRanges⟩]
      cachedCompilation := none })

/-- Errors raised by builder mutators. -/
inductive AgendaError where
  | unknownEvent : AgendaError
deriving DecidableEq

/-- `extend_event`: raises `ValueError` ("Event ID ... does not exist",
the spec's `UnknownEventError`) when the id was never registered; the raise
happens before any mutation, so the second component is the (unchanged)
state the caller is left with. -/
def extendEvent (s : BuilderState) (internalEventId : ℕ)
    (timeRanges : List TimeRange) : Except AgendaError Unit × BuilderState :=
  if (dictGet s.events internalEventId).isNone then
    (.error .unknownEvent, s)
  else
    (.ok (),
      { s with
        pendingEvents := s.pendingEvents ++ [⟨internalEventId, timeRanges⟩]
        cachedCompilation := none })

/-- `_get_time_index` (build, lines 201-206): minutes-after-midnight of the
target, wrapped forward by 24h when strictly earlier than the grid start
time, divided by the granularity in minutes.  The divisor is
`granularity.seconds / 60`; for a `timedelta` of `g` whole minutes the
`seconds` attribute is `(g*60) % 86400`.  `None` is returned when the
difference is negative (dead in practice, kept faithfully). -/
def getTimeIndex (startTime granMin targetMin : ℕ) : Option ℚ :=
  let target := if targetMin < startTime then targetMin + 24 * 60 else targetMin
  let diff : ℤ := (target : ℤ) - (startTime : ℤ)
  let divisorMin : ℚ := (((granMin * 60) % 86400 : ℕ) : ℚ) / 60
  if 0 ≤ diff then some ((diff : ℚ) / divisorMin) else none

/-- `_get_day_index` (build, lines 197-199). -/
def getDayIndex (startDate numDays d : ℤ) : Option ℕ :=
  let delta := d - startDate
  if 0 ≤ delta ∧ delta < numDays then some delta.toNat else none

/-- The integer cell index used for grid placement:
`t_idx_int = int(math.floor(t_idx_float))` (build, line 222). -/
def slotCellIndex (q : ℚ) : ℤ := ⌊q⌋

/-- The `while curr_dt < limit_dt` loop of build step 3 in closed form: the
visited timestamps (absolute minutes) are `curr, curr + g, ...`, strictly
below `limit`, i.e. `⌈(limit - curr)/g⌉` of them (0 when `limit ≤ curr`).
Callers guarantee `g ≠ 0` (a zero granularity already raised upstream). -/
def rangeTimestamps (g : ℕ) (curr limit : ℤ) : List ℤ :=
  (List.range (((limit - curr).toNat + g - 1) / g)).map (fun i => curr + (i : ℤ) * g)

/-- Minutes-after-midnight of an absolute-minutes timestamp
(`curr_dt.time()`). -/
def minutesOfDay (ts : ℤ) : ℕ := (ts % 1440).toNat

/-- The grid writes performed by build step 3 ("Populate Grid"), in program
order: for each pending item, for each parsed range, for each stepped
timestamp, quantize and — when the day index exists, the time index exists
and the floored slot index is within `[0, num_slots)` — emit the write
`grid[t_idx_int][d_idx] = {'id': internal_id, 'frac_start': t_idx_float}`. -/
def rangeAssignments (g : ℕ) (startDate numDays : ℤ) (startTime : ℕ)
    (numSlots : ℕ) (pending : List PendingItem) : List (ℕ × ℕ × GridCell) :=
  pending.flatMap (fun p =>
    p.ranges.flatMap (fun tr =>
      let curr0 : ℤ := tr.date * 1440 + tr.startT
      let limit : ℤ := match tr.endT with
        | some e => tr.date * 1440 + e
        | none => curr0 + g
      (rangeTimestamps g curr0 limit).filterMap (fun ts =>
        match getDayIndex startDate numDays tr.date,
              getTimeIndex startTime g (minutesOfDay ts) with
        | some dIdx, some tq =>
          let tInt := slotCellIndex tq
          if 0 ≤ tInt ∧ tInt < (numSlots : ℤ) then
            some (tInt.toNat, dIdx, ⟨p.internalId, tq⟩)
          else none
        | _, _ => none)))

/-- `grid[r][c] = v` on a list-of-lists grid (no-op out of bounds; the
source only writes at indices it has checked to be in bounds). -/
def setCell (grid : List (List (Option GridCell))) (r c : ℕ)
    (v : Option GridCell) : List (List (Option GridCell)) :=
  grid.set r ((grid.getD r []).set c v)

/-- Execute the grid writes of build step 3 in order. -/
def applyAssignments (grid0 : List (List (Option GridCell)))
    (asgs : List (ℕ × ℕ × GridCell)) : List (List (Option GridCell)) :=
  asgs.foldl (fun gr a => setCell gr a.1 a.2.1 (some a.2.2)) grid0

/-- `grid[r][c]` lookup on a list-of-lists grid. -/
def gridGet (grid : List (List (Option GridCell))) (r c : ℕ) : Option GridCell :=
  (grid.getD r []).getD c none

/-- Exceptions that `build` can raise. -/
inductive BuildError where
  | typeErrorNoneGranularity : BuildError
  | zeroDivisionError : BuildError
deriving DecidableEq

/-- `AgendaBuilder.build`.  `today` models `datetime.date.today()` (used only
as the bounds fallback when nothing constrains the dates).  Faithful
behaviours embedded here:
* the cached compilation, when present, is returned before anything else is
  looked at (so even `granularity_minutes=None` succeeds on a cache hit);
* `granularity = 15 if not granularity_minutes else granularity_minutes` is
  immediately overwritten by `granularity = timedelta(minutes=granularity_minutes)`,
  so the 15-minute fallback is discarded and a `None` argument raises
  `TypeError` inside the `timedelta` constructor;
* a zero granularity raises `ZeroDivisionError` at the `num_slots` division;
* bounds inference, slot counting (with the end time wrapping to the next
  day when `end <= start`) and grid population follow lines 144-243. -/
def build (s : BuilderState) (today : ℤ) (granularityMinutes : Option ℕ) :
    Except BuildError (CompiledAgenda × BuilderState) :=
  match s.cachedCompilation with
  | some ca => .ok (ca, s)
  | none =>
    match granularityMinutes with
    | none => .error .typeErrorNoneGranularity
    | some g =>
      let allDates := s.pendingEvents.flatMap (fun p => p.ranges.map (fun tr => tr.date))
      let allTimes := s.pendingEvents.flatMap (fun p =>
        p.ranges.flatMap (fun tr => tr.startT :: tr.endT.toList))
      let startDate := s.prefStartDate.getD (allDates.min?.getD today)
      let endDate := s.prefEndDate.getD (allDates.max?.getD startDate)
      let numDays : ℤ := endDate - startDate + 1
      let startTime := s.prefStartTime.getD (allTimes.min?.getD 480)
      let endTime := s.prefEndTime.getD (allTimes.max?.getD 1080)
      let endWrapped := if endTime ≤ startTime then endTime + 1440 else endTime
      let diffMin := endWrapped - startTime
      if g = 0 then .error .zeroDivisionError
      else
        let numSlots := (diffMin + g - 1) / g
        let grid0 := List.replicate numSlots
          (List.replicate numDays.toNat (none : Option GridCell))
        let grid := applyAssignments grid0
          (rangeAssignments g startDate numDays startTime numSlots s.pendingEvents)
        let ca : CompiledAgenda :=
          ⟨s.title, startDate, endDate, startTime, endTime, g, numDays, numSlots,
            grid, s.events, s.colors, s.specialEvents⟩
        .ok (ca, { s with cachedCompilation := some ca })

/-! ### Shape lemmas for grid writes -/

theorem setCell_length (g : List (List (Option GridCell))) (r c : ℕ)
    (v : Option GridCell) : (setCell g r c v).length = g.length := by
  simp [setCell]

theorem getD_set {α : Type} (l : List α) (i j : ℕ) (a d : α) :
    (l.set i a).getD j d = if i = j ∧ i < l.length then a else l.getD j d := by
  rw [List.getD_eq_getElem?_getD, List.getElem?_set, List.getD_eq_getElem?_getD]
  by_cases hij : i = j
  · subst hij
    by_cases hi : i < l.length
    · simp [hi]
    · simp [hi, List.getElem?_eq_none (Nat.le_of_not_lt hi)]
  · simp [hij]

theorem setCell_row_length (g : List (List (Option GridCell))) (r c i : ℕ)
    (v : Option GridCell) :
    ((setCell g r c v).getD i []).length = (g.getD i []).length := by
  unfold setCell
  rw [getD_set]
  by_cases h : r = i ∧ r < g.length
  · rw [if_pos h]
    obtain ⟨h1, _⟩ := h
    subst h1
    simp
  · rw [if_neg h]

theorem gridGet_setCell (g : List (List (Option GridCell))) (r c r' c' : ℕ)
    (v : Option GridCell) :
    gridGet (setCell g r c v) r' c' =
      if r = r' ∧ c = c' ∧ r < g.length ∧ c < (g.getD r []).length then v
      else gridGet g r' c' := by
  unfold gridGet setCell
  rw [getD_set]
  by_cases hr : r = r' ∧ r < g.length
  · rw [if_pos hr]
    obtain ⟨h1, h2⟩ := hr
    subst h1
    rw [getD_set]
    by_cases hc : c = c' ∧ c < (g.getD r []).length
    · rw [if_pos hc, if_pos ⟨rfl, hc.1, h2, hc.2⟩]
    · rw [if_neg hc, if_neg (fun hcon => hc ⟨hcon.2.1, hcon.2.2.2⟩)]
  · rw [if_neg hr, if_neg (fun hcon => hr ⟨hcon.1, hcon.2.2.1⟩)]

theorem applyAssignments_length (asgs : List (ℕ × ℕ × GridCell))
    (grid0 : List (List (Option GridCell))) :
    (applyAssignments grid0 asgs).length = grid0.length := by
  induction asgs generalizing grid0 with
  | nil => rfl
  | cons a rest ih =>
    show (applyAssignments (setCell grid0 a.1 a.2.1 (some a.2.2)) rest).length = _
    rw [ih, setCell_length]

theorem applyAssignments_row_length (asgs : List (ℕ × ℕ × GridCell))
    (grid0 : List (List (Option GridCell))) (i : ℕ) :
    ((applyAssignments grid0 asgs).getD i []).length = (grid0.getD i []).length := by
  induction asgs generalizing grid0 with
  | nil => rfl
  | cons a rest ih =>
    show ((applyAssignments (setCell grid0 a.1 a.2.1 (some a.2.2)) rest).getD i []).length = _
    rw [ih, setCell_row_length]

theorem foldl_replace_getLast {α β : Type} (f : α → β) (l : List α) (init : β) :
    l.foldl (fun _ a => f a) init = (l.getLast?.map f).getD init := by
  induction l generalizing init with
  | nil => rfl
  | cons a rest ih =>
    show rest.foldl (fun _ x => f x) (f a) = ((a :: rest).getLast?.map f).getD init
    rw [ih (f a)]
    cases rest with
    | nil => rfl
    | cons b t =>
      rw [List.getLast?_cons_cons]
      obtain ⟨x, hx⟩ := Option.isSome_iff_exists.mp
        (List.getLast?_isSome.mpr (List.cons_ne_nil b t))
      rw [hx]
      rfl

/-! ### C10, C7, C5, C6 -/

/-- C10: with `granularity_minutes = None` (the default, also the default
forwarded by both `generate_latex_*` entry points) `build` raises a
`TypeError` whenever no cached compilation exists, because
`timedelta(minutes=granularity_minutes)` is constructed directly from the
`None` argument — the 15-minute fallback computed on the preceding line is
discarded.  Consequently `build` can only return normally when
`granularity_minutes` is an actual number. -/
theorem c10_build_none_granularity_type_error (s : BuilderState) (today : ℤ)
    (h : s.cachedCompilation = none) :
    build s today none = .error .typeErrorNoneGranularity ∧
    ∀ gm ca s', build s today gm = .ok (ca, s') → ∃ g, gm = some g := by
  constructor
  · unfold build; rw [h]
  · intro gm ca s' hb
    cases gm with
    | none => unfold build at hb; rw [h] at hb; exact absurd hb (by simp)
    | some g => exact ⟨g, rfl⟩

/-- Witness for C10 at a concrete fresh builder. -/
theorem c10_witness :
    (initialState none none none none).cachedCompilation = none ∧
    build (initialState none none none none) 0 none =
      .error .typeErrorNoneGranularity :=
  ⟨rfl, (c10_build_none_granularity_type_error (initialState none none none none)
    0 rfl).1⟩

/-- C7: `extend_event` on an unregistered id raises (`ValueError`, the
spec's `UnknownEventError`) before mutating anything: no pending range is
recorded and the cached compilation is untouched — the state component
returned is literally the input state. -/
theorem c7_extend_event_unknown (s : BuilderState) (eid : ℕ)
    (trs : List TimeRange) (h : dictGet s.events eid = none) :
    extendEvent s eid trs = (.error .unknownEvent, s) := by
  unfold extendEvent
  rw [h]
  rfl

/-- Witness for C7: extending id 5 on a fresh builder fails and leaves the
state unchanged. -/
theorem c7_witness :
    dictGet (initialState none none none none).events 5 = none ∧
    extendEvent (initialState none none none none) 5 [⟨0, 540, none⟩] =
      (.error .unknownEvent, initialState none none none none) :=
  ⟨rfl, c7_extend_event_unknown (initialState none none none none) 5
    [⟨0, 540, none⟩] rfl⟩

/-- C5 (amended): with a cached snapshot present, `build` returns exactly
the cached `CompiledAgenda` and leaves the state unchanged; event
registration (`add_event`), successful time-range addition (`extend_event`)
and title change (`set_title`) all clear the cache (forcing a rebuild on the
next call), but color definition (`define_color`) and special-event addition
(`add_special_event`) do NOT invalidate the cached snapshot. -/
theorem c5_cache_amended (s : BuilderState) (today : ℤ) (gm : Option ℕ)
    (ca : CompiledAgenda) (h : s.cachedCompilation = some ca) :
    build s today gm = .ok (ca, s) ∧
    (∀ col ti st trs sz oe ek,
      ((addEvent s col ti st trs sz oe ek).2).cachedCompilation = none) ∧
    (∀ eid trs res s', extendEvent s eid trs = (.ok res, s') →
      s'.cachedCompilation = none) ∧
    (∀ t, (setTitle s t).cachedCompilation = none) ∧
    (∀ name r g b, (defineColor s name r g b).cachedCompilation = some ca) ∧
    (∀ d tr ti st c, (addSpecialEvent s d tr ti st c).cachedCompilation = some ca) := by
  refine ⟨by unfold build; rw [h], fun col ti st trs sz oe ek => rfl,
    fun eid trs res s' hx => ?_, fun t => rfl, fun name r g b => h,
    fun d tr ti st c => h⟩
  unfold extendEvent at hx
  by_cases hk : (dictGet s.events eid).isNone
  · rw [if_pos hk] at hx
    simp at hx
  · rw [if_neg hk] at hx
    have h2 := congrArg Prod.snd hx
    simp only at h2
    rw [← h2]

/-- Witness for C5's amended statement at a concrete built agenda. -/
theorem c5_witness :
    ∃ s : BuilderState, ∃ ca : CompiledAgenda, s.cachedCompilation = some ca ∧
      build s 0 (some 15) = .ok (ca, s) := by
  classical
  let base : BuilderState :=
    (addEvent (initialState none none none none) "colA" "A" none
      [⟨100, 540, some 600⟩] none false none).2
  let s1 : BuilderState :=
    match build base 0 (some 15) with
    | .ok (_, s') => s'
    | .error _ => base
  let ca1 : CompiledAgenda :=
    match s1.cachedCompilation with
    | some ca => ca
    | none => ⟨"", 0, 0, 0, 0, 0, 0, 0, [], [], [], []⟩
  have hc : s1.cachedCompilation = some ca1 := rfl
  exact ⟨s1, ca1, hc, (c5_cache_amended s1 0 (some 15) ca1 hc).1⟩

/-- Fixed concrete scenario for the C5 counterexample and the C6 witness:
one event over 09:00-10:00, a second event over 09:15-09:30 on the same
day, granularity 15. -/
def twoEventState : BuilderState :=
  let a := addEvent (initialState none none none none) "colA" "A" none
    [⟨100, 540, some 600⟩] none false none
  (addEvent a.2 "colB" "B" none [⟨100, 555, some 570⟩] none false none).2

/-- The builder state after a first successful `build` of `twoEventState`. -/
def twoEventBuilt : BuilderState :=
  match build twoEventState 0 (some 15) with
  | .ok (_, s') => s'
  | .error _ => twoEventState

/-- The compiled snapshot cached inside `twoEventBuilt`. -/
def twoEventCompiled : CompiledAgenda :=
  match twoEventBuilt.cachedCompilation with
  | some ca => ca
  | none => ⟨"", 0, 0, 0, 0, 0, 0, 0, [], [], [], []⟩

/-- C5 counterexample: `define_color` is one of the claim's listed source
mutations, it visibly changes the builder state, and yet the next `build`
still returns the identical cached `CompiledAgenda` (no rebuild): the
"only if" direction of the claim is false on the code. -/
theorem c5_counterexample :
    twoEventBuilt.cachedCompilation = some twoEventCompiled ∧
    defineColor twoEventBuilt "colX" 1 2 3 ≠ twoEventBuilt ∧
    build (defineColor twoEventBuilt "colX" 1 2 3) 0 (some 15) =
      .ok (twoEventCompiled, defineColor twoEventBuilt "colX" 1 2 3) := by
  refine ⟨rfl, ?_, rfl⟩
  intro hcontra
  have : (defineColor twoEventBuilt "colX" 1 2 3).colors = twoEventBuilt.colors :=
    congrArg BuilderState.colors hcontra
  exact absurd this (by decide)

/-- C6: grid population executes its cell writes in program order and each
write replaces the previous occupant, so any cell of the populated grid
holds exactly the payload of the last assignment targeting it (or its
initial contents when no assignment targets it); no merging happens and no
write can fail. -/
theorem c6_last_write_wins (grid0 : List (List (Option GridCell)))
    (asgs : List (ℕ × ℕ × GridCell)) (t d : ℕ)
    (hin : ∀ a ∈ asgs, a.1 < grid0.length ∧ a.2.1 < (grid0.getD a.1 []).length) :
    gridGet (applyAssignments grid0 asgs) t d =
      match (asgs.filter (fun a => a.1 = t ∧ a.2.1 = d)).getLast? with
      | some a => some a.2.2
      | none => gridGet grid0 t d := by
  induction asgs generalizing grid0 with
  | nil => rfl
  | cons a rest ih =>
    have ha := hin a (List.mem_cons_self a rest)
    have hrest : ∀ x ∈ rest, x.1 < (setCell grid0 a.1 a.2.1 (some a.2.2)).length ∧
        x.2.1 < ((setCell grid0 a.1 a.2.1 (some a.2.2)).getD x.1 []).length := by
      intro x hx
      rw [setCell_length, setCell_row_length]
      exact hin x (List.mem_cons_of_mem a hx)
    show gridGet (applyAssignments (setCell grid0 a.1 a.2.1 (some a.2.2)) rest) t d = _
    rw [ih _ hrest]
    by_cases hat : a.1 = t ∧ a.2.1 = d
    · obtain ⟨h1, h2⟩ := hat
      subst h1; subst h2
      rw [List.filter_cons_of_pos (by simp), List.getLast?_cons]
      cases hlast : (rest.filter (fun x => x.1 = a.1 ∧ x.2.1 = a.2.1)).getLast? with
      | some b => rfl
      | none =>
        show gridGet (setCell grid0 a.1 a.2.1 (some a.2.2)) a.1 a.2.1 = some a.2.2
        rw [gridGet_setCell, if_pos ⟨rfl, rfl, ha.1, ha.2⟩]
    · rw [List.filter_cons_of_neg (by simpa using hat)]
      cases hlast : (rest.filter (fun x => x.1 = t ∧ x.2.1 = d)).getLast? with
      | some b => rfl
      | none =>
        show gridGet (setCell grid0 a.1 a.2.1 (some a.2.2)) t d = gridGet grid0 t d
        rw [gridGet_setCell,
          if_neg (fun hcon => hat ⟨hcon.1, hcon.2.1⟩)]

/-- Witness for C6: in `twoEventCompiled` the cell (slot 1, day 0) was
targeted by both events' ranges; the later (event 2) write is what the cell
holds, with event 2's id and frac_start. -/
theorem c6_witness :
    (∀ a ∈ rangeAssignments 15 100 1 540 4 twoEventState.pendingEvents,
      a.1 < (List.replicate 4 (List.replicate 1 (none : Option GridCell))).length ∧
      a.2.1 < ((List.replicate 4 (List.replicate 1 (none : Option GridCell))).getD a.1 []).length) ∧
    gridGet (applyAssignments (List.replicate 4 (List.replicate 1 (none : Option GridCell)))
      (rangeAssignments 15 100 1 540 4 twoEventState.pendingEvents)) 1 0 =
      some ⟨2, 1⟩ := by
  refine ⟨by decide, ?_⟩
  rw [c6_last_write_wins _ _ 1 0 (by decide)]
  decide

/-- C4: for every clock time the quantizer returns the fractional slot index
`(target_minutes - start_minutes) / granularity_minutes`, with the target
first pushed forward by 24*60 minutes when strictly earlier than the grid
start time; the result is never negative (and is strictly positive whenever
the target differs from the start, e.g. 23:30 against a 09:00 grid start),
and the integer cell index used for grid placement is the floor
(`slotCellIndex`) of the fractional index.  Stated for granularities of less
than one day, where `timedelta(minutes=g).seconds / 60 = g`. -/
theorem c4_time_quantizer (startT g target : ℕ) (hg0 : 0 < g) (hg : g < 1440)
    (hs : startT < 1440) :
    ∃ q : ℚ, getTimeIndex startT g target = some q ∧
      q = (((if target < startT then target + 24 * 60 else target : ℕ) : ℚ) -
        (startT : ℚ)) / (g : ℚ) ∧
      0 ≤ q ∧
      (target ≠ startT → 0 < q) ∧
      slotCellIndex q = ⌊q⌋ := by
  have hdivisor : ((((g * 60) % 86400 : ℕ) : ℚ) / 60) = (g : ℚ) := by
    rw [Nat.mod_eq_of_lt (by omega)]
    push_cast
    rw [mul_div_assoc]
    norm_num
  set target' := if target < startT then target + 24 * 60 else target with htarget'
  have hts : startT ≤ target' := by
    by_cases h : target < startT
    · simp only [htarget', if_pos h]; omega
    · simp only [htarget', if_neg h]; omega
  have hts' : target ≠ startT → startT < target' := by
    intro hne
    by_cases h : target < startT
    · simp only [htarget', if_pos h]; omega
    · simp only [htarget', if_neg h]; omega
  have hdiff : (0 : ℤ) ≤ (target' : ℤ) - (startT : ℤ) := by
    omega
  refine ⟨(((target' : ℤ) - (startT : ℤ) : ℤ) : ℚ) / ((((g * 60) % 86400 : ℕ) : ℚ) / 60),
    ?_, ?_, ?_, ?_, rfl⟩
  · simp only [getTimeIndex]
    rw [if_pos hdiff]
  · rw [hdivisor]
    push_cast
    ring
  · rw [hdivisor]
    apply div_nonneg
    · push_cast; exact_mod_cast hdiff
    · exact_mod_cast Nat.zero_le g
  · intro hne
    rw [hdivisor]
    apply div_pos
    · have h2 : (startT : ℚ) < (target' : ℚ) := by exact_mod_cast hts' hne
      push_cast
      linarith
    · exact_mod_cast hg0

/-- Witness for C4 at the claim's own instance: target 23:30 (1410 min)
against grid start 09:00 (540 min), granularity 15. -/
theorem c4_witness :
    ∃ q : ℚ, getTimeIndex 540 15 1410 = some q ∧
      q = (((if 1410 < 540 then 1410 + 24 * 60 else 1410 : ℕ) : ℚ) -
        ((540 : ℕ) : ℚ)) / ((15 : ℕ) : ℚ) ∧
      0 ≤ q ∧
      ((1410 : ℕ) ≠ 540 → 0 < q) ∧
      slotCellIndex q = ⌊q⌋ :=
  c4_time_quantizer 540 15 1410 (by decide) (by decide) (by decide)

/-! ### Region Resolver: `AgendaLatexRenderer._create_render_grid` -/

/-- The `text` payload written into an event's anchor cell (lines 396-402). -/
structure TextPayload where
  title : String
  subtext : String
  subtextSize : String
  fracStart : ℚ
  xOffsetCols : ℚ
deriving DecidableEq

/-- One cell of the ephemeral RenderGrid as initialized by PASS 1
(lines 332-340; `raw_data` only repeats the other fields and is omitted;
the legacy-grid border tags are added by a separate pass not needed here). -/
structure RCell where
  id : Option ℕ
  bgColor : Option String
  text : Option TextPayload
  fracStart : Option ℚ
  openEnded : Bool
  span : ℤ
deriving DecidableEq

/-- The empty/default render cell (what PASS 1 produces for an unoccupied
logical cell). -/
def emptyRCell : RCell := ⟨none, none, none, none, false, 1⟩

/-- The substitution table of `_sanitize` for one character. -/
def sanitizeChar (c : Char) : List Char :=
  if c = '&' then ['\\', '&']
  else if c = '%' then ['\\', '%']
  else if c = '$' then ['\\', '$']
  else if c = '#' then ['\\', '#']
  else if c = '_' then ['\\', '_']
  else if c = '\x7b' then ['\\', '\x7b']
  else if c = '\x7d' then ['\\', '\x7d']
  else [c]

/-- `_sanitize`: fixed character substitution (falsy input, i.e. the empty
string, maps to "").  The source applies seven sequential global
`str.replace` calls; since every pattern is a single character, the
patterns are pairwise distinct, and each replacement inserts only a
backslash plus that same character (never a character some later pass
would match), the chain equals one simultaneous per-character
substitution, which is how it is modelled here. -/
def sanitize (text : String) : String :=
  if text = "" then "" else ⟨text.data.flatMap sanitizeChar⟩

/-- PASS 1 for one cell: merge grid data with event metadata; a data cell
whose id is not in the event table renders as empty. -/
def pass1Cell (data : CompiledAgenda) (r c : ℕ) : RCell :=
  match gridGet data.grid r c with
  | none => emptyRCell
  | some gc =>
    match dictGet data.events gc.id with
    | none => emptyRCell
    | some ev => ⟨some gc.id, some ev.color, none, some gc.fracStart, ev.openEnded, 1⟩

/-- The PASS 1 render grid (`rows = num_slots`, `cols = num_days`). -/
def renderGridBase (data : CompiledAgenda) : List (List RCell) :=
  (List.range data.numSlots).map (fun r =>
    (List.range data.numDays.toNat).map (fun c => pass1Cell data r c))

/-- `render_grid[r][c]` lookup. -/
def cellAt (rg : List (List RCell)) (r c : ℕ) : RCell :=
  (rg.getD r []).getD c emptyRCell

/-- PASS 2 cell collection for one event id: all `(slot, day)` with
`render_grid[rr][cc]['id'] == eid`, in row-major order (lines 352-356). -/
def eventCellsOf (rows cols : ℕ) (rg : List (List RCell)) (eid : ℕ) :
    List (ℕ × ℕ) :=
  (List.range rows).flatMap (fun rr =>
    (List.range cols).filterMap (fun cc =>
      if (cellAt rg rr cc).id = some eid then some (rr, cc) else none))

/-- `min_col` of the occupied columns (call sites have nonempty cells). -/
def minColOf (cells : List (ℕ × ℕ)) : ℕ := (cells.map (fun x => x.2)).min?.getD 0

/-- `max_col` of the occupied columns. -/
def maxColOf (cells : List (ℕ × ℕ)) : ℕ := (cells.map (fun x => x.2)).max?.getD 0

/-- `center_col = int((min_col + max_col) // 2.0)` — the floor of
`(min_col + max_col) / 2` (line 363). -/
def candidateCenterCol (cells : List (ℕ × ℕ)) : ℕ :=
  (minColOf cells + maxColOf cells) / 2

/-- `x_offset_cols`: 0.0 when `(max_col - min_col) % 2 == 0`, else 0.5
(lines 364-368). -/
def xOffsetColsOf (cells : List (ℕ × ℕ)) : ℚ :=
  if (maxColOf cells - minColOf cells) % 2 = 0 then 0 else (1 : ℚ) / 2

/-- `center_col_cells` (lines 366-370): the event's cells in the candidate
center column; in the odd-spread case additionally only those whose right
neighbor also carries the event id. -/
def centerColCells (rg : List (List RCell)) (eid : ℕ)
    (cells : List (ℕ × ℕ)) : List (ℕ × ℕ) :=
  let cc0 := cells.filter (fun x => x.2 = candidateCenterCol cells)
  if (maxColOf cells - minColOf cells) % 2 = 0 then cc0
  else cc0.filter (fun x =>
    (cellAt rg x.1 (candidateCenterCol cells + 1)).id = some eid)

/-- The vertical-span scan (lines 382-387): number of consecutive rows
carrying `eid` in column `col`, scanning down from row `i` and stopping at
`rows`.  Fuel-structured for executability; callers pass `fuel = rows`. -/
def runLenFrom (rg : List (List RCell)) (rows eid col : ℕ) :
    ℕ → ℕ → ℕ
  | 0, _ => 0
  | fuel + 1, i =>
    if i < rows ∧ (cellAt rg i col).id = some eid then
      1 + runLenFrom rg rows eid col fuel (i + 1)
    else 0

/-- Exceptions PASS 2 can raise. -/
inductive RenderError where
  | typeErrorNoneCell : RenderError
  | attributeErrorNoneEvent : RenderError
deriving DecidableEq

/-- The anchor data written for one event: the anchor cell coordinates, the
text payload, and the signed span. -/
structure AnchorResult where
  bottomRow : ℕ
  centerCol : ℕ
  payload : TextPayload
  finalSpan : ℤ
deriving DecidableEq

/-- The `(visual_start_row, center_col)` pair of PASS 2 (lines 373-379):
the fallback branch when no candidate center cell survives, else the
minimum row of the surviving candidate cells together with the candidate
center column. -/
def anchorPairOf (rg : List (List RCell)) (eid : ℕ) (cells : List (ℕ × ℕ)) :
    ℕ × ℕ :=
  let ccCells := centerColCells rg eid cells
  if ccCells.isEmpty then
    let vsr := (cells.map (fun x => x.1)).min?.getD 0
    let topRowCols := (cells.filter (fun x => x.1 = vsr)).map (fun x => x.2)
    let mn := topRowCols.min?.getD 0
    let mx := topRowCols.max?.getD 0
    (vsr, mn + (mx - mn) / 2)
  else
    ((ccCells.map (fun x => x.1)).min?.getD 0, candidateCenterCol cells)

/-- PASS 2 anchor resolution for one event id (lines 360-403).  PASS 2 only
ever reads the `id` layer of the render grid, which PASS 1 fixed and PASS 2
never mutates, so resolution is a pure function of the PASS 1 grid.
`typeErrorNoneCell` models the `None['frac_start']` subscript `TypeError`
when the (possibly fallback) anchor coordinates address an empty logical
cell; `attributeErrorNoneEvent` the `None.title` `AttributeError` for an id
missing from the event table (unreachable when the event has cells). -/
def resolveEvent (data : CompiledAgenda) (rg : List (List RCell)) (eid : ℕ) :
    Except RenderError AnchorResult :=
  let rows := data.numSlots
  let cols := data.numDays.toNat
  let cells := eventCellsOf rows cols rg eid
  let xOff := xOffsetColsOf cells
  let pair := anchorPairOf rg eid cells
  let vsr := pair.1
  let centerCol := pair.2
  let runLen := runLenFrom rg rows eid centerCol rows vsr
  let bottomRow := vsr + (runLen - 1)
  let span := bottomRow - vsr + 1
  let finalSpan : ℤ := if span = 1 then 1 else -(span : ℤ)
  match gridGet data.grid vsr centerCol with
  | none => .error .typeErrorNoneCell
  | some gc =>
    match dictGet data.events eid with
    | none => .error .attributeErrorNoneEvent
    | some ev =>
      .ok ⟨bottomRow, centerCol,
        ⟨sanitize ev.title, sanitize ev.subtext, ev.subtextSize, gc.fracStart, xOff⟩,
        finalSpan⟩

/-- First-occurrence order of the PASS 2 outer row-major scan with its
`processed_ids` guard. -/
def firstOccurrences (l : List ℕ) : List ℕ :=
  l.foldl (fun acc a => if a ∈ acc then acc else acc ++ [a]) []

/-- The event ids as the PASS 2 outer loop encounters them: row-major over
the logical data grid, empties skipped. -/
def dataGridIds (data : CompiledAgenda) : List ℕ :=
  (List.range data.numSlots).flatMap (fun r =>
    (List.range data.numDays.toNat).filterMap (fun c =>
      (gridGet data.grid r c).map (fun gc => gc.id)))

/-- Write one event's `text` payload and signed span into its anchor cell
(lines 396-403). -/
def writeAnchor (rg : List (List RCell)) (res : AnchorResult) :
    List (List RCell) :=
  let row := rg.getD res.bottomRow []
  let cell := row.getD res.centerCol emptyRCell
  rg.set res.bottomRow (row.set res.centerCol
    { cell with text := some res.payload, span := res.finalSpan })

/-- Run PASS 2 over the ids in first-encounter order: ids with no render
cells are skipped (without error), all others are resolved against the
static PASS 1 grid `base` and their anchors written in order. -/
def applyAnchors (data : CompiledAgenda) (base : List (List RCell)) :
    List ℕ → List (List RCell) → Except RenderError (List (List RCell))
  | [], rg => .ok rg
  | eid :: rest, rg =>
    if (eventCellsOf data.numSlots data.numDays.toNat base eid).isEmpty then
      applyAnchors data base rest rg
    else
      match resolveEvent data base eid with
      | .error e => .error e
      | .ok res => applyAnchors data base rest (writeAnchor rg res)

/-- `_create_render_grid`: PASS 1 then PASS 2. -/
def createRenderGrid (data : CompiledAgenda) :
    Except RenderError (List (List RCell)) :=
  let base := renderGridBase data
  applyAnchors data base (firstOccurrences (dataGridIds data)) base

/-! ### C3: Scenario A -/

/-- Scenario A input: one event on one day, 09:00-10:00, no neighbors. -/
def scenarioAState : BuilderState :=
  (addEvent (initialState none none none none) "colA" "Alpha" none
    [⟨100, 540, some 600⟩] none false none).2

/-- The compiled agenda of Scenario A (granularity 15 ⇒ a 4×1 grid whose
column 0 is fully occupied by event 1, starting exactly on the grid start). -/
def scenarioACompiled : CompiledAgenda :=
  match build scenarioAState 0 (some 15) with
  | .ok (ca, _) => ca
  | .error _ => ⟨"", 0, 0, 0, 0, 0, 0, 0, [], [], [], []⟩

/-- The render grid of Scenario A. -/
def scenarioARenderGrid : List (List RCell) :=
  match createRenderGrid scenarioACompiled with
  | .ok rg => rg
  | .error _ => []

/-- C3: compiling Scenario A (one event, day 0, slots 0-3, 15-minute
granularity, event range starting exactly on the 09:00 grid start) and
building the render grid places the text payload at cell (3, 0) with
`frac_start = 0.0` in the payload (taken from the top row of the run),
records `span = -4` there (negated because the run spans more than one
slot), and leaves `text = null` in every other cell of the event. -/
theorem c3_scenario_a_anchor :
    build scenarioAState 0 (some 15) =
      .ok (scenarioACompiled,
        { scenarioAState with cachedCompilation := some scenarioACompiled }) ∧
    scenarioACompiled.numSlots = 4 ∧
    scenarioACompiled.numDays = 1 ∧
    scenarioACompiled.startTime = 540 ∧
    gridGet scenarioACompiled.grid 0 0 = some ⟨1, 0⟩ ∧
    gridGet scenarioACompiled.grid 1 0 = some ⟨1, 1⟩ ∧
    gridGet scenarioACompiled.grid 2 0 = some ⟨1, 2⟩ ∧
    gridGet scenarioACompiled.grid 3 0 = some ⟨1, 3⟩ ∧
    createRenderGrid scenarioACompiled = .ok scenarioARenderGrid ∧
    (cellAt scenarioARenderGrid 3 0).text =
      some ⟨"Alpha", "", "normalsize", 0, 0⟩ ∧
    (cellAt scenarioARenderGrid 3 0).span = -4 ∧
    (cellAt scenarioARenderGrid 0 0).text = none ∧
    (cellAt scenarioARenderGrid 1 0).text = none ∧
    (cellAt scenarioARenderGrid 2 0).text = none := by
  decide

/-! ### C2: the anchor-column rule -/

theorem mem_eventCellsOf (rows cols : ℕ) (rg : List (List RCell)) (eid r c : ℕ) :
    (r, c) ∈ eventCellsOf rows cols rg eid ↔
      r < rows ∧ c < cols ∧ (cellAt rg r c).id = some eid := by
  simp only [eventCellsOf, List.mem_flatMap, List.mem_filterMap, List.mem_range]
  constructor
  · rintro ⟨rr, hrr, cc, hcc, h⟩
    by_cases hid : (cellAt rg rr cc).id = some eid
    · rw [if_pos hid] at h
      simp only [Option.some.injEq, Prod.mk.injEq] at h
      obtain ⟨rfl, rfl⟩ := h
      exact ⟨hrr, hcc, hid⟩
    · rw [if_neg hid] at h
      exact Option.noConfusion h
  · rintro ⟨hr, hc, hid⟩
    exact ⟨r, hr, c, hc, by rw [if_pos hid]⟩

theorem natMin_getD_spec (l : List ℕ) (hne : l ≠ []) :
    (l.min?.getD 0) ∈ l ∧ ∀ x ∈ l, (l.min?.getD 0) ≤ x := by
  cases hm : l.min? with
  | none => exact absurd (List.min?_eq_none_iff.mp hm) hne
  | some a => simpa using List.min?_eq_some_iff'.mp hm

theorem natMax_getD_spec (l : List ℕ) (hne : l ≠ []) :
    (l.max?.getD 0) ∈ l ∧ ∀ x ∈ l, x ≤ (l.max?.getD 0) := by
  cases hm : l.max? with
  | none => exact absurd (List.max?_eq_none_iff.mp hm) hne
  | some a => simpa using List.max?_eq_some_iff'.mp hm

/-- Extraction of the PASS 2 result fields from a successful
`resolveEvent`. -/
theorem resolveEvent_ok_fields (data : CompiledAgenda) (rg : List (List RCell))
    (eid : ℕ) (res : AnchorResult)
    (h : resolveEvent data rg eid = .ok res) :
    res.payload.xOffsetCols =
      xOffsetColsOf (eventCellsOf data.numSlots data.numDays.toNat rg eid) ∧
    res.centerCol =
      (anchorPairOf rg eid (eventCellsOf data.numSlots data.numDays.toNat rg eid)).2 := by
  simp only [resolveEvent] at h
  split at h
  · exact absurd h (by simp)
  · split at h
    · exact absurd h (by simp)
    · simp only [Except.ok.injEq] at h
      subst h
      exact ⟨rfl, rfl⟩

/-- C2: for every event, the candidate anchor column is
`floor((min_day + max_day)/2)` of its occupied columns; when
`max_day - min_day` is odd the horizontal offset is 0.5 and only candidate
rows whose right-neighbor column also carries the event id are kept, when
even the offset is 0.  In particular an event occupying exactly two
adjacent day-columns over the same slots anchors at the left of the two
with offset 0.5. -/
theorem c2_anchor_column_rule (data : CompiledAgenda) (rg : List (List RCell))
    (eid : ℕ) (res : AnchorResult)
    (h : resolveEvent data rg eid = .ok res) :
    (res.payload.xOffsetCols =
      xOffsetColsOf (eventCellsOf data.numSlots data.numDays.toNat rg eid)) ∧
    (∀ cells : List (ℕ × ℕ),
      ((maxColOf cells - minColOf cells) % 2 = 0 → xOffsetColsOf cells = 0) ∧
      ((maxColOf cells - minColOf cells) % 2 ≠ 0 → xOffsetColsOf cells = 1 / 2) ∧
      ((maxColOf cells - minColOf cells) % 2 ≠ 0 →
        ∀ x ∈ centerColCells rg eid cells,
          (cellAt rg x.1 (candidateCenterCol cells + 1)).id = some eid)) ∧
    (centerColCells rg eid (eventCellsOf data.numSlots data.numDays.toNat rg eid) ≠ [] →
      res.centerCol =
        (minColOf (eventCellsOf data.numSlots data.numDays.toNat rg eid) +
          maxColOf (eventCellsOf data.numSlots data.numDays.toNat rg eid)) / 2) ∧
    (∀ (S : Set ℕ) (c0 : ℕ),
      (∀ r c, (cellAt rg r c).id = some eid ↔
        r ∈ S ∧ r < data.numSlots ∧ (c = c0 ∨ c = c0 + 1)) →
      (∃ r, r ∈ S ∧ r < data.numSlots) →
      c0 + 1 < data.numDays.toNat →
      res.centerCol = c0 ∧ res.payload.xOffsetCols = 1 / 2) := by
  obtain ⟨hxoff, hcenter⟩ := resolveEvent_ok_fields data rg eid res h
  refine ⟨hxoff, ?_, ?_, ?_⟩
  · intro cells
    refine ⟨fun he => ?_, fun ho => ?_, fun ho x hx => ?_⟩
    · rw [xOffsetColsOf, if_pos he]
    · rw [xOffsetColsOf, if_neg ho]
    · simp only [centerColCells] at hx
      rw [if_neg ho] at hx
      have := (List.mem_filter.mp hx).2
      exact of_decide_eq_true this
  · intro hne
    rw [hcenter]
    simp only [anchorPairOf]
    rw [if_neg (fun hT => hne (List.isEmpty_iff.mp hT))]
    rfl
  · intro S c0 hiff ⟨rw0, hrwS, hrwlt⟩ hc0
    set cells := eventCellsOf data.numSlots data.numDays.toNat rg eid with hcellsdef
    have hmem : ∀ r c, (r, c) ∈ cells ↔
        (r ∈ S ∧ r < data.numSlots) ∧ (c = c0 ∨ c = c0 + 1) := by
      intro r c
      rw [hcellsdef, mem_eventCellsOf, hiff]
      constructor
      · rintro ⟨h1, h2, h3, h4, h5⟩
        exact ⟨⟨h3, h1⟩, h5⟩
      · rintro ⟨⟨h1, h2⟩, h3⟩
        refine ⟨h2, ?_, h1, h2, h3⟩
        rcases h3 with rfl | rfl
        · omega
        · omega
    have hc0cell : (rw0, c0) ∈ cells := (hmem rw0 c0).mpr ⟨⟨hrwS, hrwlt⟩, Or.inl rfl⟩
    have hc1cell : (rw0, c0 + 1) ∈ cells := (hmem rw0 (c0 + 1)).mpr ⟨⟨hrwS, hrwlt⟩, Or.inr rfl⟩
    have hLc0 : c0 ∈ cells.map (fun x => x.2) :=
      List.mem_map.mpr ⟨(rw0, c0), hc0cell, rfl⟩
    have hLc1 : c0 + 1 ∈ cells.map (fun x => x.2) :=
      List.mem_map.mpr ⟨(rw0, c0 + 1), hc1cell, rfl⟩
    have hLmem : ∀ x ∈ cells.map (fun y => y.2), x = c0 ∨ x = c0 + 1 := by
      intro x hx
      obtain ⟨⟨r, c⟩, hrc, rfl⟩ := List.mem_map.mp hx
      exact ((hmem r c).mp hrc).2
    have hLne : cells.map (fun x => x.2) ≠ [] := fun hnil => by
      rw [hnil] at hLc0; exact List.not_mem_nil c0 hLc0
    have hmin : minColOf cells = c0 := by
      obtain ⟨h1, h2⟩ := natMin_getD_spec (cells.map (fun x => x.2)) hLne
      have h3 := hLmem _ h1
      have h4 := h2 _ hLc0
      rw [minColOf]
      omega
    have hmax : maxColOf cells = c0 + 1 := by
      obtain ⟨h1, h2⟩ := natMax_getD_spec (cells.map (fun x => x.2)) hLne
      have h3 := hLmem _ h1
      have h4 := h2 _ hLc1
      rw [maxColOf]
      omega
    have hodd : (maxColOf cells - minColOf cells) % 2 ≠ 0 := by
      rw [hmin, hmax]
      omega
    have hcand : candidateCenterCol cells = c0 := by
      rw [candidateCenterCol, hmin, hmax]
      omega
    have hccne : centerColCells rg eid cells ≠ [] := by
      simp only [centerColCells]
      rw [if_neg hodd]
      intro hnil
      have hin : (rw0, c0) ∈ (cells.filter (fun x => x.2 = candidateCenterCol cells)).filter
          (fun x => (cellAt rg x.1 (candidateCenterCol cells + 1)).id = some eid) := by
        rw [List.mem_filter, List.mem_filter]
        refine ⟨⟨hc0cell, by rw [hcand]; simp⟩, ?_⟩
        rw [hcand]
        simp only [decide_eq_true_eq]
        exact (hiff rw0 (c0 + 1)).mpr ⟨hrwS, hrwlt, Or.inr rfl⟩
      rw [hnil] at hin
      exact List.not_mem_nil _ hin
    constructor
    · rw [hcenter]
      simp only [anchorPairOf]
      rw [if_neg (fun hT => hccne (List.isEmpty_iff.mp hT))]
      exact hcand
    · rw [hxoff]
      simp only [xOffsetColsOf]
      rw [if_neg hodd]

/-- Scenario C data for the C2 witness: one event occupying day-columns 0
and 1 on slots 0 and 1 of a 2×2 compiled grid. -/
def scenarioCData : CompiledAgenda :=
  ⟨"t", 0, 1, 540, 570, 15, 2, 2,
    [[some ⟨1, 0⟩, some ⟨1, 0⟩], [some ⟨1, 1⟩, some ⟨1, 1⟩]],
    [(1, ⟨1, "cA", "A", "", "normalsize", false⟩)],
    [], []⟩

/-- Scenario C resolver result. -/
def scenarioCRes : AnchorResult :=
  match resolveEvent scenarioCData (renderGridBase scenarioCData) 1 with
  | .ok res => res
  | .error _ => ⟨0, 0, ⟨"", "", "", 0, 0⟩, 0⟩

/-- Witness for C2 at Scenario C: the resolver succeeds, the theorem's
x-offset characterization applies, and concretely the anchor column is the
left of the two (column 0) with offset 0.5. -/
theorem c2_witness :
    resolveEvent scenarioCData (renderGridBase scenarioCData) 1 = .ok scenarioCRes ∧
    scenarioCRes.payload.xOffsetCols =
      xOffsetColsOf (eventCellsOf scenarioCData.numSlots scenarioCData.numDays.toNat
        (renderGridBase scenarioCData) 1) ∧
    scenarioCRes.centerCol = 0 ∧
    scenarioCRes.payload.xOffsetCols = 1 / 2 :=
  ⟨by decide,
    (c2_anchor_column_rule scenarioCData (renderGridBase scenarioCData) 1 scenarioCRes
      (by decide)).1,
    by decide, by decide⟩

/-! ### C1: single-anchor — supporting lemmas -/

theorem rcell_getD_set (l : List RCell) (i j : ℕ) (a d : RCell) :
    (l.set i a).getD j d = if i = j ∧ i < l.length then a else l.getD j d := by
  rw [List.getD_eq_getElem?_getD, List.getElem?_set, List.getD_eq_getElem?_getD]
  by_cases hij : i = j
  · subst hij
    by_cases hi : i < l.length
    · simp [hi]
    · simp [hi, List.getElem?_eq_none (Nat.le_of_not_lt hi)]
  · simp [hij]

theorem rrow_getD_set (g : List (List RCell)) (i j : ℕ) (a : List RCell) :
    (g.set i a).getD j [] = if i = j ∧ i < g.length then a else g.getD j [] := by
  rw [List.getD_eq_getElem?_getD, List.getElem?_set, List.getD_eq_getElem?_getD]
  by_cases hij : i = j
  · subst hij
    by_cases hi : i < g.length
    · simp [hi]
    · simp [hi, List.getElem?_eq_none (Nat.le_of_not_lt hi)]
  · simp [hij]

theorem cellAt_writeAnchor (rg : List (List RCell)) (res : AnchorResult)
    (r c : ℕ) :
    cellAt (writeAnchor rg res) r c =
      if res.bottomRow = r ∧ res.centerCol = c ∧ r < rg.length ∧
          c < (rg.getD r []).length then
        { cellAt rg r c with text := some res.payload, span := res.finalSpan }
      else cellAt rg r c := by
  unfold cellAt writeAnchor
  rw [rrow_getD_set]
  by_cases hr : res.bottomRow = r ∧ res.bottomRow < rg.length
  · rw [if_pos hr]
    obtain ⟨h1, h2⟩ := hr
    subst h1
    rw [rcell_getD_set]
    by_cases hc : res.centerCol = c ∧ res.centerCol < (rg.getD res.bottomRow []).length
    · obtain ⟨h3, h4⟩ := hc
      subst h3
      rw [if_pos ⟨rfl, h4⟩, if_pos ⟨rfl, rfl, h2, h4⟩]
    · rw [if_neg hc,
        if_neg (fun hcon => hc ⟨hcon.2.1, by rw [hcon.2.1]; exact hcon.2.2.2⟩)]
  · rw [if_neg hr,
      if_neg (fun hcon => hr ⟨hcon.1, by rw [hcon.1]; exact hcon.2.2.1⟩)]

theorem writeAnchor_length (rg : List (List RCell)) (res : AnchorResult) :
    (writeAnchor rg res).length = rg.length := by
  simp [writeAnchor]

theorem writeAnchor_row_length (rg : List (List RCell)) (res : AnchorResult)
    (i : ℕ) :
    ((writeAnchor rg res).getD i []).length = (rg.getD i []).length := by
  unfold writeAnchor
  rw [rrow_getD_set]
  by_cases h : res.bottomRow = i ∧ res.bottomRow < rg.length
  · rw [if_pos h]
    obtain ⟨h1, _⟩ := h
    subst h1
    simp
  · rw [if_neg h]

theorem getD_map_range {α : Type} {n r : ℕ} (f : ℕ → α) (d : α) (h : r < n) :
    ((List.range n).map f).getD r d = f r := by
  rw [List.getD_eq_getElem?_getD, List.getElem?_map, List.getElem?_range h]
  rfl

/-- A cell whose id is non-null is addressed in bounds (out-of-bounds
lookups return the default empty cell). -/
theorem bounds_of_id_some (rg : List (List RCell)) (r c : ℕ) (e : ℕ)
    (h : (cellAt rg r c).id = some e) :
    r < rg.length ∧ c < (rg.getD r []).length := by
  by_cases hr : r < rg.length
  · refine ⟨hr, ?_⟩
    by_cases hc : c < (rg.getD r []).length
    · exact hc
    · rw [cellAt, List.getD_eq_default _ _ (Nat.le_of_not_lt hc)] at h
      exact absurd h (by simp [emptyRCell])
  · rw [cellAt, List.getD_eq_default _ _ (Nat.le_of_not_lt hr)] at h
    simp only [List.getD_nil] at h
    exact absurd h (by simp [emptyRCell])

/-- `cellAt` on the PASS 1 grid evaluates to `pass1Cell` in bounds. -/
theorem cellAt_renderGridBase (data : CompiledAgenda) (r c : ℕ)
    (hr : r < data.numSlots) (hc : c < data.numDays.toNat) :
    cellAt (renderGridBase data) r c = pass1Cell data r c := by
  unfold cellAt renderGridBase
  rw [getD_map_range _ _ hr, getD_map_range _ _ hc]

theorem renderGridBase_length (data : CompiledAgenda) :
    (renderGridBase data).length = data.numSlots := by
  simp [renderGridBase]

theorem renderGridBase_row_length (data : CompiledAgenda) (i : ℕ)
    (hi : i < data.numSlots) :
    ((renderGridBase data).getD i []).length = data.numDays.toNat := by
  unfold renderGridBase
  rw [getD_map_range _ _ hi]
  simp

/-- All PASS 1 cells have `text = None`. -/
theorem renderGridBase_text_none (data : CompiledAgenda) (r c : ℕ) :
    (cellAt (renderGridBase data) r c).text = none := by
  by_cases hr : r < data.numSlots
  · by_cases hc : c < data.numDays.toNat
    · rw [cellAt_renderGridBase data r c hr hc]
      unfold pass1Cell
      split
      · rfl
      · split <;> rfl
    · have hlen := renderGridBase_row_length data r hr
      unfold cellAt
      rw [List.getD_eq_default _ _ (by omega)]
      rfl
  · have h1 : (renderGridBase data).getD r [] = ([] : List RCell) :=
      List.getD_eq_default _ _ (by rw [renderGridBase_length]; omega)
    unfold cellAt
    rw [h1]
    simp [emptyRCell]

theorem mem_firstOccurrences_aux (l : List ℕ) (acc : List ℕ) (x : ℕ) :
    x ∈ l.foldl (fun acc a => if a ∈ acc then acc else acc ++ [a]) acc ↔
      x ∈ acc ∨ x ∈ l := by
  induction l generalizing acc with
  | nil => simp
  | cons a t ih =>
    show x ∈ t.foldl _ (if a ∈ acc then acc else acc ++ [a]) ↔ _
    rw [ih]
    by_cases ha : a ∈ acc
    · rw [if_pos ha]
      constructor
      · rintro (h | h)
        · exact Or.inl h
        · exact Or.inr (List.mem_cons_of_mem a h)
      · rintro (h | h)
        · exact Or.inl h
        · rcases List.mem_cons.mp h with rfl | h2
          · exact Or.inl ha
          · exact Or.inr h2
    · rw [if_neg ha]
      simp only [List.mem_append, List.mem_singleton, List.mem_cons]
      tauto

theorem mem_firstOccurrences (l : List ℕ) (x : ℕ) :
    x ∈ firstOccurrences l ↔ x ∈ l := by
  rw [firstOccurrences, mem_firstOccurrences_aux]
  simp

theorem nodup_firstOccurrences_aux (l : List ℕ) (acc : List ℕ)
    (hacc : acc.Nodup) :
    (l.foldl (fun acc a => if a ∈ acc then acc else acc ++ [a]) acc).Nodup := by
  induction l generalizing acc with
  | nil => exact hacc
  | cons a t ih =>
    show (t.foldl _ (if a ∈ acc then acc else acc ++ [a])).Nodup
    by_cases ha : a ∈ acc
    · rw [if_pos ha]
      exact ih acc hacc
    · rw [if_neg ha]
      refine ih _ ?_
      rw [List.nodup_append]
      exact ⟨hacc, List.nodup_singleton a, by simpa using ha⟩

theorem nodup_firstOccurrences (l : List ℕ) : (firstOccurrences l).Nodup :=
  nodup_firstOccurrences_aux l [] List.nodup_nil

/-- Cells targeted by no processed anchor are left exactly as they were. -/
theorem applyAnchors_untouched (data : CompiledAgenda) (base : List (List RCell))
    (order : List ℕ) (rg rgF : List (List RCell))
    (h : applyAnchors data base order rg = .ok rgF) (r c : ℕ)
    (hno : ∀ e ∈ order,
      ¬(eventCellsOf data.numSlots data.numDays.toNat base e).isEmpty = true →
      ∀ res, resolveEvent data base e = .ok res →
      ¬(res.bottomRow = r ∧ res.centerCol = c)) :
    cellAt rgF r c = cellAt rg r c := by
  induction order generalizing rg with
  | nil =>
    simp only [applyAnchors, Except.ok.injEq] at h
    subst h
    rfl
  | cons a rest ih =>
    unfold applyAnchors at h
    by_cases hskip : (eventCellsOf data.numSlots data.numDays.toNat base a).isEmpty = true
    · rw [if_pos hskip] at h
      exact ih rg h (fun e he hae res hres => hno e (List.mem_cons_of_mem a he) hae res hres)
    · rw [if_neg hskip] at h
      rcases hres : resolveEvent data base a with e1 | resa
      · rw [hres] at h
        exact absurd h (by simp)
      · rw [hres] at h
        have step := ih (writeAnchor rg resa) h
          (fun e he hae res hres2 => hno e (List.mem_cons_of_mem a he) hae res hres2)
        rw [step, cellAt_writeAnchor,
          if_neg (fun hcon =>
            hno a (List.mem_cons_self a rest) hskip resa hres ⟨hcon.1, hcon.2.1⟩)]

/-- PASS 2 never changes the id or background-color layer. -/
theorem applyAnchors_id_bg (data : CompiledAgenda) (base : List (List RCell))
    (order : List ℕ) (rg rgF : List (List RCell))
    (h : applyAnchors data base order rg = .ok rgF) (r c : ℕ) :
    (cellAt rgF r c).id = (cellAt rg r c).id ∧
    (cellAt rgF r c).bgColor = (cellAt rg r c).bgColor := by
  induction order generalizing rg with
  | nil =>
    simp only [applyAnchors, Except.ok.injEq] at h
    subst h
    exact ⟨rfl, rfl⟩
  | cons a rest ih =>
    unfold applyAnchors at h
    by_cases hskip : (eventCellsOf data.numSlots data.numDays.toNat base a).isEmpty = true
    · rw [if_pos hskip] at h
      exact ih rg h
    · rw [if_neg hskip] at h
      rcases hres : resolveEvent data base a with e1 | resa
      · rw [hres] at h
        exact absurd h (by simp)
      · rw [hres] at h
        obtain ⟨h1, h2⟩ := ih (writeAnchor rg resa) h
        rw [h1, h2, cellAt_writeAnchor]
        split
        · exact ⟨rfl, rfl⟩
        · exact ⟨rfl, rfl⟩

/-- The anchor write of a processed event, alone in targeting its cell,
survives to the final grid. -/
theorem applyAnchors_anchor_written (data : CompiledAgenda)
    (base : List (List RCell)) (order : List ℕ) (rg rgF : List (List RCell))
    (h : applyAnchors data base order rg = .ok rgF)
    (hnodup : order.Nodup) (e : ℕ) (he : e ∈ order)
    (hae : ¬(eventCellsOf data.numSlots data.numDays.toNat base e).isEmpty = true)
    (res : AnchorResult) (hres : resolveEvent data base e = .ok res)
    (hdistinct : ∀ e' ∈ order, e' ≠ e →
      ¬(eventCellsOf data.numSlots data.numDays.toNat base e').isEmpty = true →
      ∀ res', resolveEvent data base e' = .ok res' →
      ¬(res'.bottomRow = res.bottomRow ∧ res'.centerCol = res.centerCol))
    (hb1 : res.bottomRow < rg.length)
    (hb2 : res.centerCol < (rg.getD res.bottomRow []).length) :
    (cellAt rgF res.bottomRow res.centerCol).text = some res.payload ∧
    (cellAt rgF res.bottomRow res.centerCol).span = res.finalSpan := by
  induction order generalizing rg with
  | nil => exact absurd he (List.not_mem_nil e)
  | cons a rest ih =>
    unfold applyAnchors at h
    rcases List.mem_cons.mp he with rfl | herest
    · rw [if_neg hae, hres] at h
      have hno : ∀ e' ∈ rest,
          ¬(eventCellsOf data.numSlots data.numDays.toNat base e').isEmpty = true →
          ∀ res', resolveEvent data base e' = .ok res' →
          ¬(res'.bottomRow = res.bottomRow ∧ res'.centerCol = res.centerCol) := by
        intro e' he' hae' res' hres'
        by_cases hee : e' = e
        · subst hee
          exact absurd he' (List.nodup_cons.mp hnodup).1
        · exact hdistinct e' (List.mem_cons_of_mem e he') hee hae' res' hres'
      have huntouched := applyAnchors_untouched data base rest (writeAnchor rg res)
        rgF h res.bottomRow res.centerCol hno
      rw [huntouched, cellAt_writeAnchor, if_pos ⟨rfl, rfl, hb1, hb2⟩]
      exact ⟨rfl, rfl⟩
    · have hane : a ≠ e := by
        intro hcon
        subst hcon
        exact (List.nodup_cons.mp hnodup).1 herest
      by_cases hskip : (eventCellsOf data.numSlots data.numDays.toNat base a).isEmpty = true
      · rw [if_pos hskip] at h
        exact ih rg h (List.nodup_cons.mp hnodup).2 herest
          (fun e' he' hee hae' res' hres' =>
            hdistinct e' (List.mem_cons_of_mem a he') hee hae' res' hres')
          hb1 hb2
      · rw [if_neg hskip] at h
        rcases hresa : resolveEvent data base a with e1 | resa
        · rw [hresa] at h
          exact absurd h (by simp)
        · rw [hresa] at h
          refine ih (writeAnchor rg resa) h (List.nodup_cons.mp hnodup).2 herest
            (fun e' he' hee hae' res' hres' =>
              hdistinct e' (List.mem_cons_of_mem a he') hee hae' res' hres')
            ?_ ?_
          · rw [writeAnchor_length]
            exact hb1
          · rw [writeAnchor_row_length]
            exact hb2

/-- A non-null PASS 1 id comes from the logical grid, so its event id
occurs in the row-major id list of the data grid. -/
theorem mem_dataGridIds_of_base_id (data : CompiledAgenda) (r c e : ℕ)
    (hr : r < data.numSlots) (hc : c < data.numDays.toNat)
    (h : (cellAt (renderGridBase data) r c).id = some e) :
    e ∈ dataGridIds data := by
  rw [cellAt_renderGridBase data r c hr hc] at h
  unfold pass1Cell at h
  rcases hg : gridGet data.grid r c with _ | gc
  · rw [hg] at h
    exact absurd h (by simp [emptyRCell])
  · simp only [hg] at h
    rcases hev : dictGet data.events gc.id with _ | ev
    · simp only [hev] at h
      exact absurd h (by simp [emptyRCell])
    · simp only [hev, Option.some.injEq] at h
      subst h
      unfold dataGridIds
      rw [List.mem_flatMap]
      refine ⟨r, List.mem_range.mpr hr, ?_⟩
      rw [List.mem_filterMap]
      exact ⟨c, List.mem_range.mpr hc, by rw [hg]; rfl⟩

/-- C1 (amended): if every event with at least one occupied render cell
resolves to an anchor cell that itself carries that event's id (which rules
out the non-rectangular fallback landing on another event's cell), then
after `_create_render_grid` construction the ids and background colors are
exactly those of PASS 1, and each occupied event has exactly one of its
cells carrying a non-null text payload — every other cell of the event has
`text = null`. -/
theorem c1_single_anchor_amended (data : CompiledAgenda)
    (rgF : List (List RCell))
    (hok : createRenderGrid data = .ok rgF)
    (hanchor : ∀ e,
      eventCellsOf data.numSlots data.numDays.toNat (renderGridBase data) e ≠ [] →
      ∃ res, resolveEvent data (renderGridBase data) e = .ok res ∧
        (cellAt (renderGridBase data) res.bottomRow res.centerCol).id = some e)
    (e : ℕ)
    (hocc : eventCellsOf data.numSlots data.numDays.toNat (renderGridBase data) e ≠ []) :
    (∀ r c, (cellAt rgF r c).id = (cellAt (renderGridBase data) r c).id ∧
      (cellAt rgF r c).bgColor = (cellAt (renderGridBase data) r c).bgColor) ∧
    ∃ r c, (cellAt rgF r c).id = some e ∧ (cellAt rgF r c).text ≠ none ∧
      ∀ r' c', (cellAt rgF r' c').id = some e → (cellAt rgF r' c').text ≠ none →
        r' = r ∧ c' = c := by
  have hfold : applyAnchors data (renderGridBase data)
      (firstOccurrences (dataGridIds data)) (renderGridBase data) = .ok rgF := hok
  refine ⟨fun r c => applyAnchors_id_bg _ _ _ _ _ hfold r c, ?_⟩
  obtain ⟨res, hres, hid⟩ := hanchor e hocc
  have hbounds := bounds_of_id_some _ _ _ _ hid
  -- e occurs in the processing order
  obtain ⟨⟨r0, c0⟩, hmem0⟩ := List.exists_mem_of_ne_nil _ hocc
  obtain ⟨hr0, hc0, hid0⟩ := (mem_eventCellsOf _ _ _ _ _ _).mp hmem0
  have horder : e ∈ firstOccurrences (dataGridIds data) :=
    (mem_firstOccurrences _ _).mpr (mem_dataGridIds_of_base_id data r0 c0 e hr0 hc0 hid0)
  have hae : ¬(eventCellsOf data.numSlots data.numDays.toNat (renderGridBase data) e).isEmpty = true :=
    fun hT => hocc (List.isEmpty_iff.mp hT)
  have hdistinct : ∀ e' ∈ firstOccurrences (dataGridIds data), e' ≠ e →
      ¬(eventCellsOf data.numSlots data.numDays.toNat (renderGridBase data) e').isEmpty = true →
      ∀ res', resolveEvent data (renderGridBase data) e' = .ok res' →
      ¬(res'.bottomRow = res.bottomRow ∧ res'.centerCol = res.centerCol) := by
    intro e' _ hee hae' res' hres' ⟨hcon1, hcon2⟩
    obtain ⟨res'', hres'', hid''⟩ := hanchor e' (fun hnil => hae' (List.isEmpty_iff.mpr hnil))
    rw [hres'] at hres''
    simp only [Except.ok.injEq] at hres''
    subst hres''
    rw [hcon1, hcon2, hid] at hid''
    exact hee (Option.some.inj hid'').symm
  obtain ⟨htext, _⟩ := applyAnchors_anchor_written data (renderGridBase data)
    (firstOccurrences (dataGridIds data)) (renderGridBase data) rgF hfold
    (nodup_firstOccurrences _) e horder hae res hres hdistinct hbounds.1 hbounds.2
  refine ⟨res.bottomRow, res.centerCol, ?_, ?_, ?_⟩
  · rw [(applyAnchors_id_bg _ _ _ _ _ hfold _ _).1, hid]
  · rw [htext]
    simp
  · intro r' c' hid' htext'
    by_contra hcon
    have hne : ¬(res.bottomRow = r' ∧ res.centerCol = c') := by
      intro ⟨hx1, hx2⟩
      exact hcon ⟨hx1.symm, hx2.symm⟩
    have hbase' : (cellAt (renderGridBase data) r' c').id = some e := by
      rw [← (applyAnchors_id_bg _ _ _ _ _ hfold r' c').1]
      exact hid'
    have huntouched := applyAnchors_untouched data (renderGridBase data)
      (firstOccurrences (dataGridIds data)) (renderGridBase data) rgF hfold r' c' ?_
    · apply htext'
      rw [huntouched]
      exact renderGridBase_text_none data r' c'
    · intro e'' _ hae'' res'' hres'' ⟨hcx1, hcx2⟩
      obtain ⟨res3, hres3, hid3⟩ :=
        hanchor e'' (fun hnil => hae'' (List.isEmpty_iff.mpr hnil))
      rw [hres''] at hres3
      simp only [Except.ok.injEq] at hres3
      subst hres3
      rw [hcx1, hcx2, hbase'] at hid3
      have he'' : e'' = e := (Option.some.inj hid3).symm
      subst he''
      rw [hres] at hres''
      simp only [Except.ok.injEq] at hres''
      subst hres''
      exact hne ⟨hcx1, hcx2⟩

/-- Witness for the amended C1 at Scenario A (where the single event's
anchor lands on its own cell (3,0)). -/
theorem c1_witness :
    createRenderGrid scenarioACompiled = .ok scenarioARenderGrid ∧
    ∃ r c, (cellAt scenarioARenderGrid r c).id = some 1 ∧
      (cellAt scenarioARenderGrid r c).text ≠ none ∧
      ∀ r' c', (cellAt scenarioARenderGrid r' c').id = some 1 →
        (cellAt scenarioARenderGrid r' c').text ≠ none → r' = r ∧ c' = c := by
  refine ⟨by decide, ?_⟩
  have hm := c1_single_anchor_amended scenarioACompiled scenarioARenderGrid
    (by decide) ?_ 1 (by decide)
  · exact hm.2
  · intro e hocc
    obtain ⟨⟨r0, c0⟩, hmem0⟩ := List.exists_mem_of_ne_nil _ hocc
    obtain ⟨hr0, hc0, hid0⟩ := (mem_eventCellsOf _ _ _ _ _ _).mp hmem0
    have hr0' : r0 < 4 := hr0
    have hc0' : c0 < 1 := hc0
    have he1 : e = 1 := by
      interval_cases r0 <;> interval_cases c0 <;>
        · rw [show (cellAt (renderGridBase scenarioACompiled) _ _).id = some 1 from
            by decide] at hid0
          exact (Option.some.inj hid0).symm
    subst he1
    exact ⟨⟨3, 0, ⟨"Alpha", "", "normalsize", 0, 0⟩, -4⟩, by decide, by decide⟩

/-- The C1 counterexample input, built through the public API: event 1
("A") occupies days 0 and 2 at the same single slot, event 2 ("B") day 1. -/
def c1State : BuilderState :=
  let a := addEvent (initialState none none none none) "colA" "A" none
    [⟨0, 540, some 555⟩, ⟨2, 540, some 555⟩] none false none
  (addEvent a.2 "colB" "B" none [⟨1, 540, some 555⟩] none false none).2

/-- The compiled C1 counterexample agenda (a 1×3 grid `[1, 2, 1]`). -/
def c1Compiled : CompiledAgenda :=
  match build c1State 0 (some 15) with
  | .ok (ca, _) => ca
  | .error _ => ⟨"", 0, 0, 0, 0, 0, 0, 0, [], [], [], []⟩

/-- The render grid of the C1 counterexample. -/
def c1RenderGrid : List (List RCell) :=
  match createRenderGrid c1Compiled with
  | .ok rg => rg
  | .error _ => []

/-- C1 counterexample: event 1 occupies two render cells, yet after
`_create_render_grid` no cell carries its text at all — its non-rectangular
footprint makes the resolver fall back to center column 1, which belongs to
event 2, and event 2's later anchor write overwrites the payload there (the
cell (0,1) ends with event 2's text only).  So "exactly one cell carries
text" fails for event 1. -/
theorem c1_counterexample :
    build c1State 0 (some 15) =
      .ok (c1Compiled, { c1State with cachedCompilation := some c1Compiled }) ∧
    createRenderGrid c1Compiled = .ok c1RenderGrid ∧
    (cellAt c1RenderGrid 0 0).id = some 1 ∧
    (cellAt c1RenderGrid 0 2).id = some 1 ∧
    (cellAt c1RenderGrid 0 1).id = some 2 ∧
    (cellAt c1RenderGrid 0 1).text = some ⟨"B", "", "normalsize", 0, 0⟩ ∧
    ¬∃ r c, (cellAt c1RenderGrid r c).id = some 1 ∧
      (cellAt c1RenderGrid r c).text ≠ none := by
  refine ⟨by decide, by decide, by decide, by decide, by decide, by decide, ?_⟩
  rintro ⟨r, c, hid, ht⟩
  obtain ⟨hb1, hb2⟩ := bounds_of_id_some _ _ _ _ hid
  have hlen : c1RenderGrid.length = 1 := by decide
  rw [hlen] at hb1
  have hr0 : r = 0 := by omega
  subst hr0
  have hrow : (c1RenderGrid.getD 0 []).length = 3 := by decide
  rw [hrow] at hb2
  interval_cases c
  · exact ht (by decide)
  · rw [show (cellAt c1RenderGrid 0 1).id = some 2 from by decide] at hid
    exact absurd (Option.some.inj hid) (by decide)
  · exact ht (by decide)

/-! ### Block Stitcher: `AgendaLatexRenderer.render_tikz`, section "3. Events"
(lines 633-731).  The emitted LaTeX strings are modelled as structured draw
commands carrying their exact coordinates; only the event-stitching section
is embedded (headers, grid lines, time axis and text nodes are separate
sections of the serializer). -/

/-- One drawn primitive of the event stitcher: a rectangle fill, a
horizontal border line, or a vertical border line. -/
inductive TikzCommand where
  | fill (color : Option String) (x1 y1 x2 y2 : ℚ) : TikzCommand
  | hline (x1 x2 y : ℚ) : TikzCommand
  | vline (x y1 y2 : ℚ) : TikzCommand
deriving DecidableEq

/-- The derived geometry constants of `render_tikz` (lines 548-563). -/
structure StitchParams where
  timeColWidth : ℚ
  dayColWidth : ℚ
  slotHeight : ℚ
  gapXRight : ℚ
  gapYBottom : ℚ
  extYBottom : ℚ
deriving DecidableEq

/-- Lines 548-563: how `render_tikz` computes the stitcher geometry from
its scale arguments (`USABLE_WIDTH_CM = 26.7`, `USABLE_HEIGHT_CM = 18.0`,
`time_col_width = 1.5`, `header_height = 0.8`). -/
def tikzParams (widthPct heightPct gapXPct gapYPct extYPct : ℚ)
    (numDays numSlots : ℕ) : StitchParams :=
  let totalWidth := (267 : ℚ) / 10 * widthPct
  let totalHeight := (18 : ℚ) * heightPct
  let timeColWidth := (3 : ℚ) / 2
  let dayColWidth := (totalWidth - timeColWidth) / (numDays : ℚ)
  let headerHeight := (4 : ℚ) / 5
  let gridHeight := totalHeight - headerHeight
  let slotHeight := gridHeight / (numSlots : ℚ)
  ⟨timeColWidth, dayColWidth, slotHeight,
    dayColWidth * gapXPct, slotHeight * gapYPct, slotHeight * extYPct⟩

/-- `has_bridge_right` at row `r` of column `c` for id `eid`
(`c < num_days - 1 and render_grid[r][c+1]['id'] == current_id`). -/
def bridgeRightAt (cols : ℕ) (rg : List (List RCell)) (eid r c : ℕ) : Bool :=
  decide (c + 1 < cols) && decide ((cellAt rg r (c + 1)).id = some eid)

/-- `has_bridge_left` at row `r` (`c > 0 and render_grid[r][c-1]['id'] ==
current_id`). -/
def bridgeLeftAt (rg : List (List RCell)) (eid r c : ℕ) : Bool :=
  decide (0 < c) && decide ((cellAt rg r (c - 1)).id = some eid)

/-- `is_true_top(start_r - 1, check_c)` (lines 660-663): true at the grid's
top edge or when the cell above does not carry the id. -/
def isTrueTopB (rg : List (List RCell)) (eid startR checkC : ℕ) : Bool :=
  decide (startR = 0) || decide ((cellAt rg (startR - 1) checkC).id ≠ some eid)

/-- `is_true_bottom(check_r, check_c)` (lines 664-667). -/
def isTrueBottomB (rows : ℕ) (rg : List (List RCell)) (eid checkR checkC : ℕ) :
    Bool :=
  decide (rows ≤ checkR) || decide ((cellAt rg checkR checkC).id ≠ some eid)

/-- One run-length segment of the per-column walk. -/
structure Segment where
  startR : ℕ
  endR : ℕ
  eid : ℕ
  openEnded : Bool
  bridgeL : Bool
  bridgeR : Bool
deriving DecidableEq

/-- The inner `while end_r < num_slots` scan (lines 648-657): extend the
run while the id matches and both bridge booleans stay what they were at
`start_r`.  Fuel-structured; callers pass `fuel = rows`. -/
def segEndScan (rows cols : ℕ) (rg : List (List RCell)) (eid c : ℕ)
    (bR bL : Bool) : ℕ → ℕ → ℕ
  | 0, endR => endR
  | fuel + 1, endR =>
    if endR < rows then
      if (cellAt rg endR c).id = some eid ∧
          bridgeRightAt cols rg eid endR c = bR ∧
          bridgeLeftAt rg eid endR c = bL then
        segEndScan rows cols rg eid c bR bL fuel (endR + 1)
      else endR
    else endR

/-- The outer per-column segment walk (lines 635-657, control flow):
advance over empty cells, else cut the maximal constant-bridge run. -/
def colSegmentsAux (rows cols : ℕ) (rg : List (List RCell)) (c : ℕ) :
    ℕ → ℕ → List Segment
  | 0, _ => []
  | fuel + 1, r =>
    if r < rows then
      match (cellAt rg r c).id with
      | none => colSegmentsAux rows cols rg c fuel (r + 1)
      | some eid =>
        let bR := bridgeRightAt cols rg eid r c
        let bL := bridgeLeftAt rg eid r c
        let e := segEndScan rows cols rg eid c bR bL rows (r + 1)
        ⟨r, e, eid, (cellAt rg r c).openEnded, bL, bR⟩ ::
          colSegmentsAux rows cols rg c fuel e
    else []

/-- The segments drawn for one day-column. -/
def colSegments (rows cols : ℕ) (rg : List (List RCell)) (c : ℕ) :
    List Segment :=
  colSegmentsAux rows cols rg c rows 0

/-- `y_top = frac_start_top * slot_height` (line 676). -/
def segYTop (P : StitchParams) (rg : List (List RCell)) (c : ℕ)
    (seg : Segment) : ℚ :=
  ((cellAt rg seg.startR c).fracStart.getD 0) * P.slotHeight

/-- `base_y_bottom = end_r * slot_height` (line 677). -/
def segBaseY (P : StitchParams) (seg : Segment) : ℚ :=
  (seg.endR : ℚ) * P.slotHeight

/-- `x_left = time_col_width + c * day_col_width` (line 679). -/
def segXLeft (P : StitchParams) (c : ℕ) : ℚ :=
  P.timeColWidth + (c : ℚ) * P.dayColWidth

/-- `main_x2 = x_right - gap_x_right` (line 691). -/
def segMainX2 (P : StitchParams) (c : ℕ) : ℚ :=
  segXLeft P c + P.dayColWidth - P.gapXRight

/-- The open-ended/gap adjustment of a bottom edge (lines 686-689 and
707-710 and 722-725 share this formula, switched on the respective
is-bottom flag). -/
def bottomEdge (P : StitchParams) (seg : Segment) (isBottom : Bool) : ℚ :=
  if isBottom then
    (if seg.openEnded then segBaseY P seg + P.extYBottom
     else segBaseY P seg - P.gapYBottom)
  else segBaseY P seg

/-- `main_y2` (lines 686-689). -/
def segMainY2 (P : StitchParams) (rows : ℕ) (rg : List (List RCell))
    (c : ℕ) (seg : Segment) : ℚ :=
  bottomEdge P seg (isTrueBottomB rows rg seg.eid seg.endR c)

/-- `bridge_is_bottom` (line 705). -/
def bridgeIsBottomB (rows cols : ℕ) (rg : List (List RCell)) (c : ℕ)
    (seg : Segment) : Bool :=
  isTrueBottomB rows rg seg.eid seg.endR c ||
    (if c + 1 < cols then isTrueBottomB rows rg seg.eid seg.endR (c + 1)
     else false)

/-- `left_bridge_is_bottom` (line 721). -/
def leftBridgeIsBottomB (rows : ℕ) (rg : List (List RCell)) (c : ℕ)
    (seg : Segment) : Bool :=
  isTrueBottomB rows rg seg.eid seg.endR c ||
    (if 0 < c then isTrueBottomB rows rg seg.eid seg.endR (c - 1) else false)

/-- `bridge_y2` (lines 707-710). -/
def segBridgeY2 (P : StitchParams) (rows cols : ℕ) (rg : List (List RCell))
    (c : ℕ) (seg : Segment) : ℚ :=
  bottomEdge P seg (bridgeIsBottomB rows cols rg c seg)

/-- `left_bridge_y2` (lines 722-725). -/
def segLeftBridgeY2 (P : StitchParams) (rows : ℕ) (rg : List (List RCell))
    (c : ℕ) (seg : Segment) : ℚ :=
  bottomEdge P seg (leftBridgeIsBottomB rows rg c seg)

/-- The draw commands emitted for one segment (lines 675-727), in program
order: main fill, conditional top/bottom/left/right borders, the
bridge-right fill with its borders and seam-patching vertical line, and the
left seam patch.  `0.001` of the seam test is the exact rational 1/1000 and
`fill_eps = 0.03` is 3/100. -/
def emitSegment (P : StitchParams) (rows cols : ℕ) (rg : List (List RCell))
    (c : ℕ) (seg : Segment) : List TikzCommand :=
  let mainIsTop := isTrueTopB rg seg.eid seg.startR c
  let rightIsTop := if c + 1 < cols then isTrueTopB rg seg.eid seg.startR (c + 1)
    else false
  let mainIsBottom := isTrueBottomB rows rg seg.eid seg.endR c
  let yTop := segYTop P rg c seg
  let xLeft := segXLeft P c
  let xRight := xLeft + P.dayColWidth
  let mainY2 := segMainY2 P rows rg c seg
  let mainX2 := segMainX2 P c
  let fillEps : ℚ := 3 / 100
  let bg := (cellAt rg seg.startR c).bgColor
  [TikzCommand.fill bg xLeft yTop (mainX2 + fillEps) (mainY2 + fillEps)]
  ++ (if mainIsTop then [TikzCommand.hline xLeft mainX2 yTop] else [])
  ++ (if mainIsBottom ∧ ¬seg.openEnded then
      [TikzCommand.hline xLeft mainX2 mainY2] else [])
  ++ (if ¬seg.bridgeL then [TikzCommand.vline xLeft yTop mainY2] else [])
  ++ (if ¬seg.bridgeR then [TikzCommand.vline mainX2 yTop mainY2] else [])
  ++ (if seg.bridgeR then
      let bridgeIsTop := mainIsTop || rightIsTop
      let bridgeIsBottom := bridgeIsBottomB rows cols rg c seg
      let bridgeY2 := segBridgeY2 P rows cols rg c seg
      [TikzCommand.fill bg mainX2 yTop (xRight + fillEps) (bridgeY2 + fillEps)]
      ++ (if bridgeIsTop then [TikzCommand.hline mainX2 xRight yTop] else [])
      ++ (if bridgeIsBottom ∧ ¬seg.openEnded then
          [TikzCommand.hline mainX2 xRight bridgeY2] else [])
      ++ (if (1 : ℚ) / 1000 < |mainY2 - bridgeY2| then
          [TikzCommand.vline mainX2 (min mainY2 bridgeY2) (max mainY2 bridgeY2)]
        else [])
    else [])
  ++ (if seg.bridgeL then
      let leftBridgeY2 := segLeftBridgeY2 P rows rg c seg
      (if (1 : ℚ) / 1000 < |mainY2 - leftBridgeY2| then
          [TikzCommand.vline xLeft (min mainY2 leftBridgeY2)
            (max mainY2 leftBridgeY2)]
        else [])
    else [])

/-- All stitcher commands of one day-column. -/
def stitchColumn (P : StitchParams) (rows cols : ℕ) (rg : List (List RCell))
    (c : ℕ) : List TikzCommand :=
  (colSegments rows cols rg c).flatMap (emitSegment P rows cols rg c)

/-- All stitcher commands of the event section (`for c in
range(self.data.num_days)`). -/
def stitchEvents (P : StitchParams) (rows cols : ℕ)
    (rg : List (List RCell)) : List TikzCommand :=
  (List.range cols).flatMap (stitchColumn P rows cols rg)

theorem mem_ite_nil {α : Type} (p : Prop) [Decidable p] (l : List α) (a : α) :
    a ∈ (if p then l else []) ↔ p ∧ a ∈ l := by
  split_ifs with h
  · simp [h]
  · simp [h]

/-- C8: for a drawn segment that is a true bottom: when the event is
open-ended the drawn bottom edge is `base + ext_y_bottom` (extended outward
by `ext_y_pct × slot_height`, per the `tikzParams` conjunct) and no bottom
border line is emitted — every horizontal line of the segment lies at its
top edge; when not open-ended the bottom edge is inset to
`base - gap_y_bottom` and the bottom border line is emitted. -/
theorem c8_true_bottom_edges (P : StitchParams) (rows cols : ℕ)
    (rg : List (List RCell)) (c : ℕ) (seg : Segment)
    (hseg : seg ∈ colSegments rows cols rg c)
    (hbottom : isTrueBottomB rows rg seg.eid seg.endR c = true) :
    (seg.openEnded = true →
      segMainY2 P rows rg c seg = segBaseY P seg + P.extYBottom ∧
      ∀ x1 x2 y, TikzCommand.hline x1 x2 y ∈ emitSegment P rows cols rg c seg →
        y = segYTop P rg c seg) ∧
    (seg.openEnded = false →
      segMainY2 P rows rg c seg = segBaseY P seg - P.gapYBottom ∧
      TikzCommand.hline (segXLeft P c) (segMainX2 P c)
        (segMainY2 P rows rg c seg) ∈ emitSegment P rows cols rg c seg) ∧
    (∀ wp hp gx gy ex nd ns,
      (tikzParams wp hp gx gy ex nd ns).extYBottom =
        (tikzParams wp hp gx gy ex nd ns).slotHeight * ex) := by
  refine ⟨fun hopen => ⟨?_, ?_⟩, fun hclosed => ⟨?_, ?_⟩, fun _ _ _ _ _ _ _ => rfl⟩
  · rw [segMainY2, hbottom, bottomEdge, if_pos rfl, if_pos hopen]
  · intro x1 x2 y hmem
    simp only [emitSegment, List.mem_append, List.mem_singleton, mem_ite_nil,
      List.mem_cons, List.not_mem_nil] at hmem
    rcases hmem with ((((((h | h) | h) | h) | h) | h) | h)
    · rcases h with h | h
      · exact absurd h (by simp)
      · exact h.elim
    · obtain ⟨_, h2⟩ := h
      rcases h2 with h2 | h2
      · simp only [TikzCommand.hline.injEq] at h2
        exact h2.2.2
      · exact h2.elim
    · obtain ⟨⟨_, hno⟩, _⟩ := h
      exact absurd hopen hno
    · obtain ⟨_, h2⟩ := h
      rcases h2 with h2 | h2
      · exact absurd h2 (by simp)
      · exact h2.elim
    · obtain ⟨_, h2⟩ := h
      rcases h2 with h2 | h2
      · exact absurd h2 (by simp)
      · exact h2.elim
    · obtain ⟨_, h2⟩ := h
      rcases h2 with (((h2 | h2) | h2) | h2)
      · rcases h2 with h3 | h3
        · exact absurd h3 (by simp)
        · exact h3.elim
      · obtain ⟨_, h3⟩ := h2
        rcases h3 with h3 | h3
        · simp only [TikzCommand.hline.injEq] at h3
          exact h3.2.2
        · exact h3.elim
      · obtain ⟨⟨_, hno⟩, _⟩ := h2
        exact absurd hopen hno
      · obtain ⟨_, h3⟩ := h2
        rcases h3 with h3 | h3
        · exact absurd h3 (by simp)
        · exact h3.elim
    · obtain ⟨_, _, h2⟩ := h
      rcases h2 with h2 | h2
      · exact absurd h2 (by simp)
      · exact h2.elim
  · rw [segMainY2, hbottom, bottomEdge, if_pos rfl, if_neg (by rw [hclosed]; simp)]
  · simp only [emitSegment, List.mem_append, List.mem_singleton, mem_ite_nil,
      List.mem_cons, List.not_mem_nil]
    exact Or.inl (Or.inl (Or.inl (Or.inl (Or.inr
      ⟨⟨hbottom, by simp [hclosed]⟩, by simp⟩))))

/-- Demo parameters for stitcher witnesses (slot height 1, column width 1,
gap and extension fractions within one slot). -/
def stitchDemoParams : StitchParams := ⟨0, 1, 1, 1 / 10, 1 / 20, 3 / 20⟩

/-- Scenario D grid: a 2×1 render grid whose final row holds an open-ended
event. -/
def stitchDemoGrid : List (List RCell) :=
  [[emptyRCell], [⟨some 1, some "cA", none, some 1, true, 1⟩]]

/-- The single segment the stitcher cuts from `stitchDemoGrid` column 0. -/
def stitchDemoSeg : Segment := ⟨1, 2, 1, true, false, false⟩

/-- Witness for C8 at Scenario D: the open-ended event in the final grid
row is a true bottom; its drawn bottom edge is `base + ext_y_bottom`. -/
theorem c8_witness :
    stitchDemoSeg ∈ colSegments 2 1 stitchDemoGrid 0 ∧
    isTrueBottomB 2 stitchDemoGrid stitchDemoSeg.eid stitchDemoSeg.endR 0 = true ∧
    segMainY2 stitchDemoParams 2 stitchDemoGrid 0 stitchDemoSeg =
      segBaseY stitchDemoParams stitchDemoSeg + stitchDemoParams.extYBottom :=
  ⟨by decide, by decide,
    ((c8_true_bottom_edges stitchDemoParams 2 1 stitchDemoGrid 0 stitchDemoSeg
      (by decide) (by decide)).1 rfl).1⟩

/-! ### C9: no vertical border on bridged internal seams — segment lemmas -/

theorem segEndScan_ge (rows cols : ℕ) (rg : List (List RCell)) (eid c : ℕ)
    (bR bL : Bool) (fuel endR0 : ℕ) :
    endR0 ≤ segEndScan rows cols rg eid c bR bL fuel endR0 := by
  induction fuel generalizing endR0 with
  | zero => exact Nat.le_refl _
  | succ fuel ih =>
    unfold segEndScan
    split
    · split
      · exact Nat.le_trans (Nat.le_succ endR0) (ih (endR0 + 1))
      · exact Nat.le_refl _
    · exact Nat.le_refl _

theorem segEndScan_le_rows (rows cols : ℕ) (rg : List (List RCell))
    (eid c : ℕ) (bR bL : Bool) (fuel endR0 : ℕ) (h0 : endR0 ≤ rows) :
    segEndScan rows cols rg eid c bR bL fuel endR0 ≤ rows := by
  induction fuel generalizing endR0 with
  | zero => exact h0
  | succ fuel ih =>
    unfold segEndScan
    split
    · split
      · exact ih (endR0 + 1) (by omega)
      · exact h0
    · exact h0

/-- Every row strictly inside the scanned run carries the id with both
bridge booleans unchanged. -/
theorem segEndScan_sound (rows cols : ℕ) (rg : List (List RCell))
    (eid c : ℕ) (bR bL : Bool) (fuel endR0 rr : ℕ)
    (h1 : endR0 ≤ rr)
    (h2 : rr < segEndScan rows cols rg eid c bR bL fuel endR0) :
    rr < rows ∧ (cellAt rg rr c).id = some eid ∧
    bridgeRightAt cols rg eid rr c = bR ∧ bridgeLeftAt rg eid rr c = bL := by
  induction fuel generalizing endR0 with
  | zero =>
    exact absurd h2 (by unfold segEndScan; omega)
  | succ fuel ih =>
    unfold segEndScan at h2
    by_cases hlt : endR0 < rows
    · rw [if_pos hlt] at h2
      by_cases hcond : (cellAt rg endR0 c).id = some eid ∧
          bridgeRightAt cols rg eid endR0 c = bR ∧ bridgeLeftAt rg eid endR0 c = bL
      · rw [if_pos hcond] at h2
        rcases Nat.eq_or_lt_of_le h1 with rfl | hgt
        · exact ⟨hlt, hcond.1, hcond.2.1, hcond.2.2⟩
        · exact ih (endR0 + 1) hgt h2
      · rw [if_neg hcond] at h2
        omega
    · rw [if_neg hlt] at h2
      omega

/-- Soundness of the per-column segment walk: every produced segment is a
nonempty run within the grid whose rows all carry the segment's id and its
constant bridge booleans. -/
theorem colSegmentsAux_sound (rows cols : ℕ) (rg : List (List RCell))
    (c : ℕ) (fuel r0 : ℕ) (seg : Segment)
    (hmem : seg ∈ colSegmentsAux rows cols rg c fuel r0) :
    seg.startR < seg.endR ∧ seg.endR ≤ rows ∧
    ∀ rr, seg.startR ≤ rr → rr < seg.endR →
      (cellAt rg rr c).id = some seg.eid ∧
      bridgeRightAt cols rg seg.eid rr c = seg.bridgeR ∧
      bridgeLeftAt rg seg.eid rr c = seg.bridgeL := by
  induction fuel generalizing r0 with
  | zero => exact absurd hmem (by unfold colSegmentsAux; simp)
  | succ fuel ih =>
    unfold colSegmentsAux at hmem
    by_cases hr : r0 < rows
    · rw [if_pos hr] at hmem
      rcases hid : (cellAt rg r0 c).id with _ | eid
      · rw [hid] at hmem
        exact ih (r0 + 1) hmem
      · rw [hid] at hmem
        rcases List.mem_cons.mp hmem with rfl | htail
        · refine ⟨?_, ?_, ?_⟩
          · exact Nat.lt_of_lt_of_le (Nat.lt_succ_self r0)
              (segEndScan_ge rows cols rg eid c _ _ rows (r0 + 1))
          · exact segEndScan_le_rows rows cols rg eid c _ _ rows (r0 + 1) (by omega)
          · intro rr hge hlt
            rcases Nat.eq_or_lt_of_le hge with rfl | hgt
            · exact ⟨hid, rfl, rfl⟩
            · exact (segEndScan_sound rows cols rg eid c _ _ rows (r0 + 1) rr
                hgt hlt).2
        · exact ih _ htail
    · rw [if_neg hr] at hmem
      exact absurd hmem (by simp)

theorem colSegments_sound (rows cols : ℕ) (rg : List (List RCell))
    (c : ℕ) (seg : Segment) (hmem : seg ∈ colSegments rows cols rg c) :
    seg.startR < seg.endR ∧ seg.endR ≤ rows ∧
    ∀ rr, seg.startR ≤ rr → rr < seg.endR →
      (cellAt rg rr c).id = some seg.eid ∧
      bridgeRightAt cols rg seg.eid rr c = seg.bridgeR ∧
      bridgeLeftAt rg seg.eid rr c = seg.bridgeL :=
  colSegmentsAux_sound rows cols rg c rows 0 seg hmem

/-- Inversion: every vertical line a segment emits is its left border, its
right border, the right-bridge seam patch, or the left seam patch. -/
theorem vline_mem_emitSegment (P : StitchParams) (rows cols : ℕ)
    (rg : List (List RCell)) (c : ℕ) (seg : Segment) (x y1 y2 : ℚ)
    (hmem : TikzCommand.vline x y1 y2 ∈ emitSegment P rows cols rg c seg) :
    (seg.bridgeL = false ∧ x = segXLeft P c ∧ y1 = segYTop P rg c seg ∧
      y2 = segMainY2 P rows rg c seg) ∨
    (seg.bridgeR = false ∧ x = segMainX2 P c ∧ y1 = segYTop P rg c seg ∧
      y2 = segMainY2 P rows rg c seg) ∨
    (seg.bridgeR = true ∧
      (1 : ℚ) / 1000 < |segMainY2 P rows rg c seg - segBridgeY2 P rows cols rg c seg| ∧
      x = segMainX2 P c ∧
      y1 = min (segMainY2 P rows rg c seg) (segBridgeY2 P rows cols rg c seg) ∧
      y2 = max (segMainY2 P rows rg c seg) (segBridgeY2 P rows cols rg c seg)) ∨
    (seg.bridgeL = true ∧
      (1 : ℚ) / 1000 < |segMainY2 P rows rg c seg - segLeftBridgeY2 P rows rg c seg| ∧
      x = segXLeft P c ∧
      y1 = min (segMainY2 P rows rg c seg) (segLeftBridgeY2 P rows rg c seg) ∧
      y2 = max (segMainY2 P rows rg c seg) (segLeftBridgeY2 P rows rg c seg)) := by
  simp only [emitSegment, List.mem_append, List.mem_singleton, mem_ite_nil,
    List.mem_cons, List.not_mem_nil] at hmem
  rcases hmem with ((((((h | h) | h) | h) | h) | h) | h)
  · rcases h with h | h
    · exact absurd h (by simp)
    · exact h.elim
  · obtain ⟨_, h2⟩ := h
    rcases h2 with h2 | h2
    · exact absurd h2 (by simp)
    · exact h2.elim
  · obtain ⟨_, h2⟩ := h
    rcases h2 with h2 | h2
    · exact absurd h2 (by simp)
    · exact h2.elim
  · obtain ⟨hb, h2⟩ := h
    rcases h2 with h2 | h2
    · simp only [TikzCommand.vline.injEq] at h2
      exact Or.inl ⟨by simpa using hb, h2.1, h2.2.1, h2.2.2⟩
    · exact h2.elim
  · obtain ⟨hb, h2⟩ := h
    rcases h2 with h2 | h2
    · simp only [TikzCommand.vline.injEq] at h2
      exact Or.inr (Or.inl ⟨by simpa using hb, h2.1, h2.2.1, h2.2.2⟩)
    · exact h2.elim
  · obtain ⟨hb, h2⟩ := h
    rcases h2 with (((h2 | h2) | h2) | h2)
    · rcases h2 with h3 | h3
      · exact absurd h3 (by simp)
      · exact h3.elim
    · obtain ⟨_, h3⟩ := h2
      rcases h3 with h3 | h3
      · exact absurd h3 (by simp)
      · exact h3.elim
    · obtain ⟨_, h3⟩ := h2
      rcases h3 with h3 | h3
      · exact absurd h3 (by simp)
      · exact h3.elim
    · obtain ⟨hd, h3⟩ := h2
      rcases h3 with h3 | h3
      · simp only [TikzCommand.vline.injEq] at h3
        exact Or.inr (Or.inr (Or.inl ⟨hb, hd, h3.1, h3.2.1, h3.2.2⟩))
      · exact h3.elim
  · obtain ⟨hb, hd, h2⟩ := h
    rcases h2 with h2 | h2
    · simp only [TikzCommand.vline.injEq] at h2
      exact Or.inr (Or.inr (Or.inr ⟨hb, hd, h2.1, h2.2.1, h2.2.2⟩))
    · exact h2.elim

theorem colIndex_of_xLeft_eq (P : StitchParams) (hw : 0 < P.dayColWidth)
    (a b : ℕ) (h : segXLeft P a = segXLeft P b) : a = b := by
  unfold segXLeft at h
  have h2 : (a : ℚ) * P.dayColWidth = (b : ℚ) * P.dayColWidth := by linarith
  have h3 : (a : ℚ) = (b : ℚ) := mul_right_cancel₀ (ne_of_gt hw) h2
  exact_mod_cast h3

theorem colIndex_of_xLeft_eq_sub (P : StitchParams) (hw : 0 < P.dayColWidth)
    (hg0 : 0 ≤ P.gapXRight) (hg1 : P.gapXRight < P.dayColWidth) (a c : ℕ)
    (h : segXLeft P a = segXLeft P (c + 1) - P.gapXRight) :
    a = c + 1 ∧ P.gapXRight = 0 := by
  unfold segXLeft at h
  have hgap : P.gapXRight = (((c + 1 : ℕ) : ℚ) - (a : ℚ)) * P.dayColWidth := by
    push_cast at h ⊢
    linarith
  rcases Nat.lt_trichotomy a (c + 1) with hlt | heq | hgt
  · exfalso
    have hc1 : (a : ℚ) + 1 ≤ ((c + 1 : ℕ) : ℚ) := by exact_mod_cast hlt
    have : P.dayColWidth ≤ P.gapXRight := by
      rw [hgap]
      nlinarith
    linarith
  · refine ⟨heq, ?_⟩
    rw [hgap, heq]
    ring
  · exfalso
    have hc1 : ((c + 1 : ℕ) : ℚ) + 1 ≤ (a : ℚ) := by exact_mod_cast hgt
    have : P.gapXRight < 0 := by
      rw [hgap]
      nlinarith
    linarith

theorem colIndex_of_mainX2_eq (P : StitchParams) (hw : 0 < P.dayColWidth)
    (hg0 : 0 ≤ P.gapXRight) (hg1 : P.gapXRight < P.dayColWidth) (a c : ℕ)
    (h : segMainX2 P a = segXLeft P (c + 1)) : a = c ∧ P.gapXRight = 0 := by
  unfold segMainX2 segXLeft at h
  have hgap : P.gapXRight = ((a : ℚ) - (c : ℚ)) * P.dayColWidth := by
    push_cast at h ⊢
    linarith
  rcases Nat.lt_trichotomy a c with hlt | heq | hgt
  · exfalso
    have hc1 : (a : ℚ) + 1 ≤ (c : ℚ) := by exact_mod_cast hlt
    have : P.gapXRight < 0 := by
      rw [hgap]
      nlinarith
    linarith
  · refine ⟨heq, ?_⟩
    rw [hgap, heq]
    ring
  · exfalso
    have hc1 : (c : ℚ) + 1 ≤ (a : ℚ) := by exact_mod_cast hgt
    have : P.dayColWidth ≤ P.gapXRight := by
      rw [hgap]
      nlinarith
    linarith

theorem colIndex_of_mainX2_eq_sub (P : StitchParams) (hw : 0 < P.dayColWidth)
    (a c : ℕ) (h : segMainX2 P a = segXLeft P (c + 1) - P.gapXRight) :
    a = c := by
  unfold segMainX2 segXLeft at h
  have h2 : (a : ℚ) * P.dayColWidth + P.dayColWidth =
      ((c + 1 : ℕ) : ℚ) * P.dayColWidth := by
    push_cast at h ⊢
    linarith
  have h3 : ((a + 1 : ℕ) : ℚ) * P.dayColWidth = ((c + 1 : ℕ) : ℚ) * P.dayColWidth := by
    push_cast
    push_cast at h2
    linarith
  have h4 : ((a + 1 : ℕ) : ℚ) = ((c + 1 : ℕ) : ℚ) :=
    mul_right_cancel₀ (ne_of_gt hw) h3
  have h5 : a + 1 = c + 1 := by exact_mod_cast h4
  omega

/-- The bottom-edge adjustment stays within one slot of the run boundary. -/
theorem bottomEdge_bounds (P : StitchParams) (seg : Segment) (b : Bool)
    (hgy0 : 0 ≤ P.gapYBottom) (hex0 : 0 ≤ P.extYBottom) :
    segBaseY P seg - P.gapYBottom ≤ bottomEdge P seg b ∧
    bottomEdge P seg b ≤ segBaseY P seg + P.extYBottom := by
  unfold bottomEdge
  split_ifs <;> constructor <;> linarith

theorem ne_of_seam_gap {u v : ℚ} (h : (1 : ℚ) / 1000 < |u - v|) : u ≠ v := by
  intro he
  rw [he, sub_self, abs_zero] at h
  linarith

/-- A seam-patch line is emitted only when the two sides' bottom flags
differ, which (the bridge flag being the disjunction) forces the main side
to not be a bottom while the neighbor side is. -/
theorem seam_gap_bools (P : StitchParams) (seg : Segment) (b x : Bool)
    (hd : (1 : ℚ) / 1000 < |bottomEdge P seg b - bottomEdge P seg (b || x)|) :
    b = false ∧ x = true := by
  have hne : b ≠ (b || x) := by
    intro he
    exact ne_of_seam_gap hd (by rw [← he])
  cases b <;> cases x <;> simp_all

/-- A border vertical line of a segment can only pass through rows of the
segment's own run, and through its end row only when the run is a true
bottom there. -/
theorem border_vline_row_bounds (P : StitchParams) (rows : ℕ)
    (rg : List (List RCell)) (cc : ℕ) (seg : Segment)
    (hh : 0 < P.slotHeight) (hgy0 : 0 ≤ P.gapYBottom)
    (hgy1 : P.gapYBottom < P.slotHeight) (hex0 : 0 ≤ P.extYBottom)
    (hex1 : P.extYBottom < P.slotHeight)
    (hlt : seg.startR < seg.endR)
    (hfr1 : (seg.startR : ℚ) ≤ (cellAt rg seg.startR cc).fracStart.getD 0)
    (hfr2 : (cellAt rg seg.startR cc).fracStart.getD 0 < (seg.startR : ℚ) + 1)
    (r : ℕ)
    (hov1 : min (segYTop P rg cc seg) (segMainY2 P rows rg cc seg) <
      ((r : ℚ) + 1) * P.slotHeight)
    (hov2 : (r : ℚ) * P.slotHeight <
      max (segYTop P rg cc seg) (segMainY2 P rows rg cc seg)) :
    seg.startR ≤ r ∧ r ≤ seg.endR ∧
    (r = seg.endR → isTrueBottomB rows rg seg.eid seg.endR cc = true) := by
  have hcast : (seg.startR : ℚ) + 1 ≤ (seg.endR : ℚ) := by exact_mod_cast hlt
  have hyT1 : (seg.startR : ℚ) * P.slotHeight ≤ segYTop P rg cc seg :=
    mul_le_mul_of_nonneg_right hfr1 (le_of_lt hh)
  have hyT2 : segYTop P rg cc seg < ((seg.startR : ℚ) + 1) * P.slotHeight :=
    mul_lt_mul_of_pos_right hfr2 hh
  obtain ⟨hm1, hm2⟩ := bottomEdge_bounds P seg
    (isTrueBottomB rows rg seg.eid seg.endR cc) hgy0 hex0
  have hm1' : segBaseY P seg - P.gapYBottom ≤ segMainY2 P rows rg cc seg := hm1
  have hm2' : segMainY2 P rows rg cc seg ≤ segBaseY P seg + P.extYBottom := hm2
  have hBase : segBaseY P seg = (seg.endR : ℚ) * P.slotHeight := rfl
  rw [hBase] at hm1' hm2'
  have hsr : seg.startR ≤ r := by
    have hminlb : (seg.startR : ℚ) * P.slotHeight ≤
        min (segYTop P rg cc seg) (segMainY2 P rows rg cc seg) := by
      apply le_min hyT1
      nlinarith
    have h1 := lt_of_le_of_lt hminlb hov1
    have h2 : (seg.startR : ℚ) < (r : ℚ) + 1 := (mul_lt_mul_right hh).mp h1
    have h3 : seg.startR < r + 1 := by exact_mod_cast h2
    omega
  have hre : r ≤ seg.endR := by
    have hmaxub : max (segYTop P rg cc seg) (segMainY2 P rows rg cc seg) ≤
        (seg.endR : ℚ) * P.slotHeight + P.extYBottom := by
      apply max_le
      · nlinarith
      · exact hm2'
    have h1 := lt_of_lt_of_le hov2 hmaxub
    have h2 : (r : ℚ) * P.slotHeight < ((seg.endR : ℚ) + 1) * P.slotHeight := by
      nlinarith
    have h3 : (r : ℚ) < (seg.endR : ℚ) + 1 := (mul_lt_mul_right hh).mp h2
    have h4 : r < seg.endR + 1 := by exact_mod_cast h3
    omega
  refine ⟨hsr, hre, ?_⟩
  intro hreq
  subst hreq
  cases hb : isTrueBottomB rows rg seg.eid seg.endR cc with
  | true => rfl
  | false =>
    exfalso
    have hmain : segMainY2 P rows rg cc seg = segBaseY P seg := by
      unfold segMainY2
      rw [hb]
      rfl
    have hyT3 : segYTop P rg cc seg ≤ (seg.endR : ℚ) * P.slotHeight := by
      nlinarith
    have hm3 : segMainY2 P rows rg cc seg ≤ (seg.endR : ℚ) * P.slotHeight := by
      rw [hmain, hBase]
    rcases lt_max_iff.mp hov2 with hcon | hcon
    · linarith
    · linarith

/-- A seam-patch vertical line lies within one slot of the run's end
boundary, so it can only pass through rows `endR - 1` and `endR`. -/
theorem seam_vline_row_bounds (P : StitchParams) (seg : Segment)
    (hh : 0 < P.slotHeight) (hgy1 : P.gapYBottom < P.slotHeight)
    (hex1 : P.extYBottom < P.slotHeight) (u v : ℚ)
    (hu1 : segBaseY P seg - P.gapYBottom ≤ u)
    (hu2 : u ≤ segBaseY P seg + P.extYBottom)
    (hv1 : segBaseY P seg - P.gapYBottom ≤ v)
    (hv2 : v ≤ segBaseY P seg + P.extYBottom)
    (r : ℕ)
    (hov1 : min u v < ((r : ℚ) + 1) * P.slotHeight)
    (hov2 : (r : ℚ) * P.slotHeight < max u v) :
    seg.endR = r ∨ seg.endR = r + 1 := by
  have hBase : segBaseY P seg = (seg.endR : ℚ) * P.slotHeight := rfl
  rw [hBase] at hu1 hu2 hv1 hv2
  have h1 : ((seg.endR : ℚ) - 1) * P.slotHeight < ((r : ℚ) + 1) * P.slotHeight := by
    have hlb : ((seg.endR : ℚ) - 1) * P.slotHeight < min u v := by
      apply lt_min <;> nlinarith
    linarith
  have h2 : (seg.endR : ℚ) - 1 < (r : ℚ) + 1 := (mul_lt_mul_right hh).mp h1
  have h3 : (r : ℚ) * P.slotHeight < ((seg.endR : ℚ) + 1) * P.slotHeight := by
    have hub : max u v < ((seg.endR : ℚ) + 1) * P.slotHeight := by
      apply max_lt <;> nlinarith
    linarith
  have h4 : (r : ℚ) < (seg.endR : ℚ) + 1 := (mul_lt_mul_right hh).mp h3
  have h5 : seg.endR < r + 2 := by
    exact_mod_cast (show (seg.endR : ℚ) < (r : ℚ) + 2 by linarith)
  have h6 : r < seg.endR + 1 := by exact_mod_cast h4
  omega

/-- C9: for horizontally adjacent cells `(r,c)` and `(r,c+1)` carrying the
same event id at an internal (non-boundary) row — the rows directly above
and below also carry the id in both columns — the Block Stitcher emits no
vertical line at the seam between the two columns (neither at the column
boundary `x_left(c+1)` nor at the gap-inset border position
`x_left(c+1) - gap_x_right`) whose drawn extent passes through row `r`'s
interior.  Stated for a well-formed render grid (empty outside
`rows × cols`, `frac_start` within its slot) and geometry with positive
cell sizes and sub-cell gap/extension adjustments. -/
theorem c9_no_internal_seam_vline (P : StitchParams) (rows cols : ℕ)
    (rg : List (List RCell))
    (hh : 0 < P.slotHeight) (hw : 0 < P.dayColWidth)
    (hgx0 : 0 ≤ P.gapXRight) (hgx1 : P.gapXRight < P.dayColWidth)
    (hgy0 : 0 ≤ P.gapYBottom) (hgy1 : P.gapYBottom < P.slotHeight)
    (hex0 : 0 ≤ P.extYBottom) (hex1 : P.extYBottom < P.slotHeight)
    (hwf : ∀ r' c', rows ≤ r' ∨ cols ≤ c' → (cellAt rg r' c').id = none)
    (hfrac : ∀ r' c', (cellAt rg r' c').id.isSome →
      (r' : ℚ) ≤ (cellAt rg r' c').fracStart.getD 0 ∧
      (cellAt rg r' c').fracStart.getD 0 < (r' : ℚ) + 1)
    (E r c : ℕ)
    (hcell1 : (cellAt rg r c).id = some E)
    (hcell2 : (cellAt rg r (c + 1)).id = some E)
    (hup : 0 < r)
    (hup1 : (cellAt rg (r - 1) c).id = some E)
    (hup2 : (cellAt rg (r - 1) (c + 1)).id = some E)
    (hdn : r + 1 < rows)
    (hdn1 : (cellAt rg (r + 1) c).id = some E)
    (hdn2 : (cellAt rg (r + 1) (c + 1)).id = some E) :
    ∀ x y1 y2, TikzCommand.vline x y1 y2 ∈ stitchEvents P rows cols rg →
      (x = segXLeft P (c + 1) ∨ x = segXLeft P (c + 1) - P.gapXRight) →
      ¬(min y1 y2 < ((r : ℚ) + 1) * P.slotHeight ∧
        (r : ℚ) * P.slotHeight < max y1 y2) := by
  intro x y1 y2 hmem hx hov
  obtain ⟨hov1, hov2⟩ := hov
  obtain ⟨c', _, hcol⟩ := List.mem_flatMap.mp hmem
  obtain ⟨seg, hseg, hemit⟩ := List.mem_flatMap.mp hcol
  obtain ⟨hlt, hle, hsound⟩ := colSegments_sound rows cols rg c' seg hseg
  have hc1cols : c + 1 < cols := by
    by_contra hcon
    have := hwf r (c + 1) (Or.inr (Nat.le_of_not_lt hcon))
    rw [hcell2] at this
    exact Option.noConfusion this
  have hrrows : r < rows := by omega
  rcases vline_mem_emitSegment P rows cols rg c' seg x y1 y2 hemit with
    ⟨hbl, hxx, hy1, hy2⟩ | ⟨hbr, hxx, hy1, hy2⟩ |
    ⟨hbr, hd, hxx, hy1, hy2⟩ | ⟨hbl, hd, hxx, hy1, hy2⟩
  · -- left border of column c': pins c' = c + 1
    have hc' : c' = c + 1 := by
      rcases hx with hx | hx
      · exact colIndex_of_xLeft_eq P hw c' (c + 1) (hxx.symm.trans hx)
      · exact (colIndex_of_xLeft_eq_sub P hw hgx0 hgx1 c' c (hxx.symm.trans hx)).1
    subst hc'
    have hid_sr := (hsound seg.startR (Nat.le_refl _) hlt).1
    have hfr := hfrac seg.startR (c + 1) (by rw [hid_sr]; rfl)
    subst hy1
    subst hy2
    obtain ⟨hsr, hre, hbotimp⟩ := border_vline_row_bounds P rows rg (c + 1) seg
      hh hgy0 hgy1 hex0 hex1 hlt hfr.1 hfr.2 r hov1 hov2
    rcases Nat.lt_or_ge r seg.endR with hr2 | hr2
    · obtain ⟨hidr, _, hblr⟩ := hsound r hsr hr2
      have heid : seg.eid = E := by
        rw [hcell2] at hidr
        exact (Option.some.inj hidr).symm
      have : bridgeLeftAt rg seg.eid r (c + 1) = true := by
        simp only [bridgeLeftAt, Nat.add_sub_cancel, heid, hcell1]
        simp
      rw [hblr, hbl] at this
      exact Bool.noConfusion this
    · have hreq : r = seg.endR := by omega
      have hbot := hbotimp hreq
      have heid : seg.eid = E := by
        have hk1 : seg.startR ≤ seg.endR - 1 := by omega
        have hk2 : seg.endR - 1 < seg.endR := by omega
        have hidk := (hsound (seg.endR - 1) hk1 hk2).1
        rw [show seg.endR - 1 = r - 1 by omega, hup2] at hidk
        exact (Option.some.inj hidk).symm
      simp only [isTrueBottomB, Bool.or_eq_true, decide_eq_true_eq] at hbot
      rcases hbot with hbot | hbot
      · omega
      · rw [← hreq, heid, hcell2] at hbot
        exact hbot rfl
  · -- right border of column c': pins c' = c
    have hc' : c' = c := by
      rcases hx with hx | hx
      · exact (colIndex_of_mainX2_eq P hw hgx0 hgx1 c' c (hxx.symm.trans hx)).1
      · exact colIndex_of_mainX2_eq_sub P hw c' c (hxx.symm.trans hx)
    have hc2 := hc'.symm
    subst hc2
    have hid_sr := (hsound seg.startR (Nat.le_refl _) hlt).1
    have hfr := hfrac seg.startR c (by rw [hid_sr]; rfl)
    subst hy1
    subst hy2
    obtain ⟨hsr, hre, hbotimp⟩ := border_vline_row_bounds P rows rg c seg
      hh hgy0 hgy1 hex0 hex1 hlt hfr.1 hfr.2 r hov1 hov2
    rcases Nat.lt_or_ge r seg.endR with hr2 | hr2
    · obtain ⟨hidr, hbrr, _⟩ := hsound r hsr hr2
      have heid : seg.eid = E := by
        rw [hcell1] at hidr
        exact (Option.some.inj hidr).symm
      have : bridgeRightAt cols rg seg.eid r c = true := by
        simp only [bridgeRightAt, heid, hcell2]
        simp [hc1cols]
      rw [hbrr, hbr] at this
      exact Bool.noConfusion this
    · have hreq : r = seg.endR := by omega
      have hbot := hbotimp hreq
      have heid : seg.eid = E := by
        have hk1 : seg.startR ≤ seg.endR - 1 := by omega
        have hk2 : seg.endR - 1 < seg.endR := by omega
        have hidk := (hsound (seg.endR - 1) hk1 hk2).1
        rw [show seg.endR - 1 = r - 1 by omega, hup1] at hidk
        exact (Option.some.inj hidk).symm
      simp only [isTrueBottomB, Bool.or_eq_true, decide_eq_true_eq] at hbot
      rcases hbot with hbot | hbot
      · omega
      · rw [← hreq, heid, hcell1] at hbot
        exact hbot rfl
  · -- right-bridge seam patch of column c': pins c' = c
    have hc' : c' = c := by
      rcases hx with hx | hx
      · exact (colIndex_of_mainX2_eq P hw hgx0 hgx1 c' c (hxx.symm.trans hx)).1
      · exact colIndex_of_mainX2_eq_sub P hw c' c (hxx.symm.trans hx)
    have hc2 := hc'.symm
    subst hc2
    obtain ⟨hmainb, hiteb⟩ := seam_gap_bools P seg
      (isTrueBottomB rows rg seg.eid seg.endR c)
      (if c + 1 < cols then isTrueBottomB rows rg seg.eid seg.endR (c + 1)
        else false) hd
    have hrightb : isTrueBottomB rows rg seg.eid seg.endR (c + 1) = true := by
      rw [if_pos hc1cols] at hiteb
      exact hiteb
    simp only [isTrueBottomB, Bool.or_eq_true, decide_eq_true_eq,
      Bool.or_eq_false_iff, decide_eq_false_iff_not] at hmainb hrightb
    obtain ⟨hendlt, hidend⟩ := hmainb
    have hidend' : (cellAt rg seg.endR c).id = some seg.eid := by
      by_contra hcon
      exact hidend hcon
    obtain ⟨hmu1, hmu2⟩ := bottomEdge_bounds P seg
      (isTrueBottomB rows rg seg.eid seg.endR c) hgy0 hex0
    obtain ⟨hbu1, hbu2⟩ := bottomEdge_bounds P seg
      (bridgeIsBottomB rows cols rg c seg) hgy0 hex0
    have hminmax1 : min y1 y2 =
        min (segMainY2 P rows rg c seg) (segBridgeY2 P rows cols rg c seg) := by
      rw [hy1, hy2, min_eq_left min_le_max]
    have hminmax2 : max y1 y2 =
        max (segMainY2 P rows rg c seg) (segBridgeY2 P rows cols rg c seg) := by
      rw [hy1, hy2, max_eq_right min_le_max]
    rw [hminmax1] at hov1
    rw [hminmax2] at hov2
    rcases seam_vline_row_bounds P seg hh hgy1 hex1
      (segMainY2 P rows rg c seg) (segBridgeY2 P rows cols rg c seg)
      hmu1 hmu2 hbu1 hbu2 r hov1 hov2 with hre | hre
    · have heid : seg.eid = E := by
        rw [hre, hcell1] at hidend'
        exact (Option.some.inj hidend').symm
      rcases hrightb with hcon | hcon
      · omega
      · rw [hre, heid, hcell2] at hcon
        exact hcon rfl
    · have heid : seg.eid = E := by
        rw [hre, hdn1] at hidend'
        exact (Option.some.inj hidend').symm
      rcases hrightb with hcon | hcon
      · omega
      · rw [hre, heid, hdn2] at hcon
        exact hcon rfl
  · -- left seam patch of column c': pins c' = c + 1
    have hc' : c' = c + 1 := by
      rcases hx with hx | hx
      · exact colIndex_of_xLeft_eq P hw c' (c + 1) (hxx.symm.trans hx)
      · exact (colIndex_of_xLeft_eq_sub P hw hgx0 hgx1 c' c (hxx.symm.trans hx)).1
    subst hc'
    obtain ⟨hmainb, hiteb⟩ := seam_gap_bools P seg
      (isTrueBottomB rows rg seg.eid seg.endR (c + 1))
      (if 0 < c + 1 then isTrueBottomB rows rg seg.eid seg.endR (c + 1 - 1)
        else false) hd
    have hleftb : isTrueBottomB rows rg seg.eid seg.endR c = true := by
      rw [if_pos (Nat.succ_pos c), Nat.add_sub_cancel] at hiteb
      exact hiteb
    simp only [isTrueBottomB, Bool.or_eq_true, decide_eq_true_eq,
      Bool.or_eq_false_iff, decide_eq_false_iff_not] at hmainb hleftb
    obtain ⟨hendlt, hidend⟩ := hmainb
    have hidend' : (cellAt rg seg.endR (c + 1)).id = some seg.eid := by
      by_contra hcon
      exact hidend hcon
    obtain ⟨hmu1, hmu2⟩ := bottomEdge_bounds P seg
      (isTrueBottomB rows rg seg.eid seg.endR (c + 1)) hgy0 hex0
    obtain ⟨hbu1, hbu2⟩ := bottomEdge_bounds P seg
      (leftBridgeIsBottomB rows rg (c + 1) seg) hgy0 hex0
    have hminmax1 : min y1 y2 = min (segMainY2 P rows rg (c + 1) seg)
        (segLeftBridgeY2 P rows rg (c + 1) seg) := by
      rw [hy1, hy2, min_eq_left min_le_max]
    have hminmax2 : max y1 y2 = max (segMainY2 P rows rg (c + 1) seg)
        (segLeftBridgeY2 P rows rg (c + 1) seg) := by
      rw [hy1, hy2, max_eq_right min_le_max]
    rw [hminmax1] at hov1
    rw [hminmax2] at hov2
    rcases seam_vline_row_bounds P seg hh hgy1 hex1
      (segMainY2 P rows rg (c + 1) seg) (segLeftBridgeY2 P rows rg (c + 1) seg)
      hmu1 hmu2 hbu1 hbu2 r hov1 hov2 with hre | hre
    · have heid : seg.eid = E := by
        rw [hre, hcell2] at hidend'
        exact (Option.some.inj hidend').symm
      rcases hleftb with hcon | hcon
      · omega
      · rw [hre, heid, hcell1] at hcon
        exact hcon rfl
    · have heid : seg.eid = E := by
        rw [hre, hdn2] at hidend'
        exact (Option.some.inj hidend').symm
      rcases hleftb with hcon | hcon
      · omega
      · rw [hre, heid, hdn1] at hcon
        exact hcon rfl

/-- Witness grid for C9: a 4×2 render grid fully occupied by one event, so
row 1 between columns 0 and 1 is an internal bridged row. -/
def c9grid : List (List RCell) :=
  [[⟨some 1, some "cA", none, some 0, false, 1⟩, ⟨some 1, some "cA", none, some 0, false, 1⟩],
   [⟨some 1, some "cA", none, some 1, false, 1⟩, ⟨some 1, some "cA", none, some 1, false, 1⟩],
   [⟨some 1, some "cA", none, some 2, false, 1⟩, ⟨some 1, some "cA", none, some 2, false, 1⟩],
   [⟨some 1, some "cA", none, some 3, false, 1⟩, ⟨some 1, some "cA", none, some 3, false, 1⟩]]

theorem c9grid_oob (r' c' : ℕ) (h : 4 ≤ r' ∨ 2 ≤ c') :
    cellAt c9grid r' c' = emptyRCell := by
  rcases h with h | h
  · unfold cellAt
    rw [List.getD_eq_default _ _ (show c9grid.length ≤ r' from h)]
    rfl
  · by_cases hr : r' < 4
    · interval_cases r' <;>
        · unfold cellAt
          exact List.getD_eq_default _ _ h
    · have h4 : (4 : ℕ) ≤ r' := by omega
      unfold cellAt
      rw [List.getD_eq_default _ _ (show c9grid.length ≤ r' from h4)]
      rfl

/-- Witness for C9: at the fully-occupied 4×2 grid, no emitted vertical
line at the seam between columns 0 and 1 passes through internal row 1. -/
theorem c9_witness :
    (cellAt c9grid 1 0).id = some 1 ∧ (cellAt c9grid 1 1).id = some 1 ∧
    (cellAt c9grid 2 0).id = some 1 ∧ (cellAt c9grid 2 1).id = some 1 ∧
    ∀ x y1 y2, TikzCommand.vline x y1 y2 ∈ stitchEvents stitchDemoParams 4 2 c9grid →
      (x = segXLeft stitchDemoParams 1 ∨
        x = segXLeft stitchDemoParams 1 - stitchDemoParams.gapXRight) →
      ¬(min y1 y2 < (((1 : ℕ) : ℚ) + 1) * stitchDemoParams.slotHeight ∧
        ((1 : ℕ) : ℚ) * stitchDemoParams.slotHeight < max y1 y2) := by
  refine ⟨by decide, by decide, by decide, by decide, ?_⟩
  refine c9_no_internal_seam_vline stitchDemoParams 4 2 c9grid (by decide)
    (by decide) (by decide) (by decide) (by decide) (by decide) (by decide)
    (by decide) ?_ ?_ 1 1 0 (by decide) (by decide) (by decide) (by decide)
    (by decide) (by decide) (by decide) (by decide)
  · intro r' c' h
    rw [c9grid_oob r' c' h]
    rfl
  · intro r' c' hs
    by_cases hr : r' < 4
    · by_cases hc : c' < 2
      · interval_cases r' <;> interval_cases c' <;> exact ⟨by decide, by decide⟩
      · rw [c9grid_oob r' c' (Or.inr (by omega))] at hs
        exact absurd hs (by decide)
    · rw [c9grid_oob r' c' (Or.inl (by omega))] at hs
      exact absurd hs (by decide)

end AgendaBuilderPy
